import Mathlib

/-!
Verification of the span-lifecycle state machine of the `otel` Ansible
callback plugin (`callback_plugins/otel.py`).

The plugin keeps a mutable dictionary `self.active_spans` with at most one
entry per level key (`playbook`, `play`, `task`, `runner`).  Each handler
ends some entries, starts a new span whose parent is the entry at the
next-shallower level, decorates it with attributes, and stores it back.
`v2_playbook_on_stats` ends everything and prints the trace id banner.

The embedding below models:
  * spans as records carrying the data the tracing SDK records (name,
    level, parent span id, attributes, status, events, timestamps);
  * the SDK semantics of `Span.end()`: only the first call stamps the end
    timestamp and hands the span to the exporter; later calls are counted
    (`endCalls`) but have no further effect, and `add_event` /
    `set_status` / `set_attribute` on an ended span are ignored;
  * the dictionary as four `Option Span` fields (entries are inserted by
    the handlers and never deleted, exactly as in the source);
  * time as a logical clock incremented at every recorded timestamp;
  * exceptions (`KeyError` from `self.active_spans[...]` on a missing
    key) as `none` results of the handlers.
-/

namespace Otel

inductive Level
  | playbook
  | play
  | task
  | runner
deriving DecidableEq, Repr

inductive SpanStatus
  | unset
  | error
deriving DecidableEq, Repr

structure SpanEvent where
  name : String
  attributes : List (String × String)
deriving DecidableEq, Repr

structure Span where
  sid : Nat
  traceId : Nat
  name : String
  level : Level
  parentSid : Option Nat
  attributes : List (String × String)
  status : SpanStatus
  events : List SpanEvent
  startedAt : Nat
  endedAt : Option Nat
  endCalls : Nat
deriving DecidableEq, Repr

/-- Python dict assignment `d[k] = v`: overwrite in place if the key is
present (keeping its position), append otherwise. -/
def upsert (m : List (String × String)) (k v : String) : List (String × String) :=
  if m.any (fun p => p.1 = k) then
    m.map (fun p => if p.1 = k then (k, v) else p)
  else m ++ [(k, v)]

/-- Python `str()` applied to a value that is already a string. -/
def pyStr (s : String) : String := s

/-- Characters after the last separator seen so far. -/
def basenameAux : List Char → List Char → List Char
  | [], acc => acc
  | c :: cs, acc =>
    if c = '/' then basenameAux cs [] else basenameAux cs (acc ++ [c])

/-- `os.path.basename`: the last path component. -/
def basename (p : String) : String := ⟨basenameAux p.data []⟩

/-- `os.path.join` for the two-argument form used by the plugin. -/
def path_join (a b : String) : String := if a = "" then b else a ++ "/" ++ b

/-- `span.set_attribute(k, v)`; the tracing SDK ignores attribute writes
on an ended span. -/
def Span.setAttribute (sp : Span) (k v : String) : Span :=
  if sp.endedAt.isSome then sp
  else { sp with attributes := upsert sp.attributes k v }

/-- `span.add_event(name=n, attributes=a)`; ignored on an ended span. -/
def Span.addEvent (sp : Span) (n : String) (a : List (String × String)) : Span :=
  if sp.endedAt.isSome then sp
  else { sp with events := sp.events ++ [⟨n, a⟩] }

/-- `span.set_status(Status(status_code=c))`; ignored on an ended span. -/
def Span.setStatus (sp : Span) (c : SpanStatus) : Span :=
  if sp.endedAt.isSome then sp
  else { sp with status := c }

/-- An Ansible playbook object: the fields read by the plugin. -/
structure Playbook where
  basedir : String
  file_name : String
deriving DecidableEq, Repr

/-- An Ansible play object: `str(play)` (its name), `play.hosts`
stringified, `play.environment or {}` and `play.vars` as association
lists in iteration order. -/
structure Play where
  name : String
  hosts : String
  environment : List (String × String)
  vars : List (String × String)
deriving DecidableEq, Repr

/-- An Ansible task object: `str(task)`, `task.action`, `task.args`, and
`task.environment` (a list of mappings). -/
structure Task where
  name : String
  action : String
  args : List (String × String)
  environment : List (List (String × String))
deriving DecidableEq, Repr

/-- A task result: the `msg` entry of `result._result`. -/
structure TaskResult where
  msg : String
deriving DecidableEq, Repr

/-- `set_play_attrs` from the source: `play.hosts` stringified, one
`environment.<k>` attribute per environment override, one `vars.<k>`
attribute (stringified) per declared variable. -/
def set_play_attrs (span : Span) (play : Play) : Span :=
  let span := span.setAttribute "play.hosts" (pyStr play.hosts)
  let span := play.environment.foldl
    (fun sp p => sp.setAttribute ("environment." ++ p.1) p.2) span
  play.vars.foldl (fun sp p => sp.setAttribute ("vars." ++ p.1) (pyStr p.2)) span

/-- The dict comprehension `{k: v for d in task.environment for k, v in
d.items()}`: flatten the list of mappings, later entries winning. -/
def flattenEnv (ds : List (List (String × String))) : List (String × String) :=
  ds.foldl (fun acc d => d.foldl (fun a p => upsert a p.1 p.2) acc) []

/-- `set_task_attrs` from the source: `task.action`, one
`task.args.<k>` attribute (stringified) per argument, one
`environment.<k>` attribute per flattened environment entry. -/
def set_task_attrs (span : Span) (task : Task) : Span :=
  let span := span.setAttribute "task.action" task.action
  let span := task.args.foldl
    (fun sp p => sp.setAttribute ("task.args." ++ p.1) (pyStr p.2)) span
  let environment := flattenEnv task.environment
  environment.foldl (fun sp p => sp.setAttribute ("environment." ++ p.1) p.2) span

/-- `set_runner_attrs` from the source: the identity. -/
def set_runner_attrs (span : Span) (_host : String) (_task : Task) : Span := span

/-- The callback module's mutable state: the four possible entries of
`self.active_spans` (never deleted once inserted), the spans handed to
the span processor in export order, a logical clock, the next fresh span
id, and the banner lines written through `self._display`. -/
structure OtelState where
  pb : Option Span
  pl : Option Span
  tk : Option Span
  rn : Option Span
  finished : List Span
  clock : Nat
  nextSid : Nat
  output : List String
deriving DecidableEq, Repr

def OtelState.getEntry (s : OtelState) : Level → Option Span
  | .playbook => s.pb
  | .play => s.pl
  | .task => s.tk
  | .runner => s.rn

def OtelState.setEntry (s : OtelState) (l : Level) (sp : Span) : OtelState :=
  match l with
  | .playbook => { s with pb := some sp }
  | .play => { s with pl := some sp }
  | .task => { s with tk := some sp }
  | .runner => { s with rn := some sp }

/-- `if key in self.active_spans: self.active_spans[key].end()`.
The SDK stamps the end time and hands the span to the processor only on
the first `end()` call; later calls are counted and otherwise ignored. -/
def endIfPresent (s : OtelState) (l : Level) : OtelState :=
  match s.getEntry l with
  | none => s
  | some sp =>
    match sp.endedAt with
    | none =>
      let sp' : Span := { sp with endedAt := some s.clock, endCalls := sp.endCalls + 1 }
      let s' := s.setEntry l sp'
      { s' with finished := s'.finished ++ [sp'], clock := s'.clock + 1 }
    | some _ => s.setEntry l { sp with endCalls := sp.endCalls + 1 }

/-- `self.tracer.start_span(name, context=...)`: a fresh span whose
parent (and trace id) comes from the span placed in the context, or the
root context when that span is `None`. -/
def startSpan (s : OtelState) (l : Level) (n : String) (parent : Option Span) :
    Span × OtelState :=
  (⟨s.nextSid,
    (match parent with | some p => p.traceId | none => s.nextSid),
    n, l, parent.map Span.sid, [], .unset, [], s.clock, none, 0⟩,
   { s with clock := s.clock + 1, nextSid := s.nextSid + 1 })

/-- `opentelemetry.trace.format_trace_id`, modelled as a deterministic
rendering of the trace id. -/
def format_trace_id (t : Nat) : String := toString t

/-- `v2_playbook_on_start`: opens the playbook span against the root
context and stores it; nothing is ended. -/
def v2_playbook_on_start (s : OtelState) (playbook : Playbook) : OtelState :=
  let (sp, s) := startSpan s .playbook
    (path_join (basename playbook.basedir) playbook.file_name) none
  s.setEntry .playbook sp

/-- `v2_playbook_on_play_start`: ends the runner, task and play entries
(in that order) when present, then opens a play span parented to the
`playbook` entry (`KeyError`, i.e. `none`, when that entry is absent). -/
def v2_playbook_on_play_start (s : OtelState) (play : Play) : Option OtelState :=
  let s := endIfPresent s .runner
  let s := endIfPresent s .task
  let s := endIfPresent s .play
  match s.getEntry .playbook with
  | none => none
  | some parent =>
    let (sp, s) := startSpan s .play ("PLAY: " ++ play.name) (some parent)
    let sp := set_play_attrs sp play
    some (s.setEntry .play sp)

/-- `v2_playbook_on_task_start`: ends the runner and task entries when
present, then opens a task span parented to the `play` entry
(`KeyError` when that entry is absent). -/
def v2_playbook_on_task_start (s : OtelState) (task : Task) : Option OtelState :=
  let s := endIfPresent s .runner
  let s := endIfPresent s .task
  match s.getEntry .play with
  | none => none
  | some parent =>
    let (sp, s) := startSpan s .task task.name (some parent)
    let sp := set_task_attrs sp task
    some (s.setEntry .task sp)

/-- `v2_runner_on_start`: ends the runner entry when present, then opens
a runner span parented to the `task` entry (`KeyError` when absent). -/
def v2_runner_on_start (s : OtelState) (host : String) (task : Task) : Option OtelState :=
  let s := endIfPresent s .runner
  match s.getEntry .task with
  | none => none
  | some parent =>
    let (sp, s) := startSpan s .runner (task.name ++ " [" ++ host ++ "]") (some parent)
    let sp := set_runner_attrs sp host task
    some (s.setEntry .runner sp)

/-- `v2_runner_on_failed`: reads the runner entry (`KeyError` when
absent), attaches an `exception` event carrying `result._result['msg']`,
sets the status to error, then ends the runner entry.  The
`ignore_errors` parameter is accepted and never used, as in the source. -/
def v2_runner_on_failed (s : OtelState) (result : TaskResult)
    (_ignore_errors : Bool) : Option OtelState :=
  let attrs := [("exception.message", result.msg)]
  match s.getEntry .runner with
  | none => none
  | some span =>
    let span := span.addEvent "exception" attrs
    let span := span.setStatus .error
    let s := s.setEntry .runner span
    some (endIfPresent s .runner)

/-- `v2_playbook_on_stats`: ends the runner, task, play and playbook
entries (in that order) when present, then reads the `playbook` entry
(`KeyError` when absent) and prints the trace id banner. -/
def v2_playbook_on_stats (s : OtelState) : Option OtelState :=
  let s := endIfPresent s .runner
  let s := endIfPresent s .task
  let s := endIfPresent s .play
  let s := endIfPresent s .playbook
  match s.getEntry .playbook with
  | none => none
  | some span =>
    some { s with output :=
      s.output ++ ["TRACE ID [" ++ format_trace_id span.traceId ++ "]"] }

/-- One lifecycle notification from the orchestration engine. -/
inductive Notif
  | playbookStart (playbook : Playbook)
  | playStart (play : Play)
  | taskStart (task : Task)
  | runnerStart (host : String) (task : Task)
  | runnerFailed (result : TaskResult) (ignore_errors : Bool)
  | stats
deriving DecidableEq, Repr

/-- Dispatch one notification to its handler. -/
def handle (s : OtelState) : Notif → Option OtelState
  | .playbookStart playbook => some (v2_playbook_on_start s playbook)
  | .playStart play => v2_playbook_on_play_start s play
  | .taskStart task => v2_playbook_on_task_start s task
  | .runnerStart host task => v2_runner_on_start s host task
  | .runnerFailed result ign => v2_runner_on_failed s result ign
  | .stats => v2_playbook_on_stats s

/-- Process a sequence of notifications, stopping at the first
propagated exception. -/
def runSeq (s : OtelState) : List Notif → Option OtelState
  | [] => some s
  | n :: ns =>
    match handle s n with
    | none => none
    | some s' => runSeq s' ns

/-- The state created by `CallbackModule.__init__`: an empty
`active_spans` dictionary and nothing exported or printed. -/
def initState : OtelState := ⟨none, none, none, none, [], 0, 0, []⟩

/-- Every span value currently recorded anywhere in the state: exported
snapshots followed by the four dictionary entries. -/
def allSpans (s : OtelState) : List Span :=
  s.finished ++ s.pb.toList ++ s.pl.toList ++ s.tk.toList ++ s.rn.toList

/-- The next-shallower level. -/
def levelUp : Level → Level
  | .playbook => .playbook
  | .play => .playbook
  | .task => .play
  | .runner => .task

/-- The span `p` was still open at instant `t`. -/
def openAt (p : Span) (t : Nat) : Prop :=
  p.endedAt = none ∨ ∃ e, p.endedAt = some e ∧ t < e

/-- Parent linkage of one span against a pool of recorded spans: a
playbook span has the root parent; any other span's recorded parent id
belongs to a recorded span one level up that had already started and was
still open when this span started. -/
def parentProp (sp : Span) (pool : List Span) : Prop :=
  (sp.level = .playbook → sp.parentSid = none) ∧
  (sp.level ≠ .playbook →
    ∃ p, p ∈ pool ∧ sp.parentSid = some p.sid ∧ p.level = levelUp sp.level ∧
      p.startedAt < sp.startedAt ∧ openAt p sp.startedAt)

/-- The nesting state of a well-formed notification stream: before the
playbook starts, inside the playbook / a play / a task, after a runner
span was opened, after the current runner failed, and after stats. -/
inductive Mode
  | m0
  | m1
  | m2
  | m3
  | m4
  | m5
  | done
deriving DecidableEq, Repr

/-- The orderings of notifications Ansible produces for one playbook
run: the playbook start comes first, each play/task/runner start nests
under an open shallower level, a failure follows the runner it reports
on, and stats comes last. -/
def validStep : Mode → Notif → Option Mode
  | .m0, .playbookStart _ => some .m1
  | .m1, .playStart _ => some .m2
  | .m1, .stats => some .done
  | .m2, .playStart _ => some .m2
  | .m2, .taskStart _ => some .m3
  | .m2, .stats => some .done
  | .m3, .playStart _ => some .m2
  | .m3, .taskStart _ => some .m3
  | .m3, .runnerStart _ _ => some .m4
  | .m3, .stats => some .done
  | .m4, .playStart _ => some .m2
  | .m4, .taskStart _ => some .m3
  | .m4, .runnerStart _ _ => some .m4
  | .m4, .runnerFailed _ _ => some .m5
  | .m4, .stats => some .done
  | .m5, .playStart _ => some .m2
  | .m5, .taskStart _ => some .m3
  | .m5, .runnerStart _ _ => some .m4
  | .m5, .stats => some .done
  | _, _ => none

/-- Run the validity automaton over a notification sequence. -/
def validFrom : Mode → List Notif → Option Mode
  | m, [] => some m
  | m, n :: ns =>
    match validStep m n with
    | none => none
    | some m' => validFrom m' ns

def entryOpen (o : Option Span) : Prop :=
  ∃ sp, o = some sp ∧ sp.endedAt = none

def entryClosedOrAbsent (o : Option Span) : Prop :=
  ∀ sp, o = some sp → sp.endedAt ≠ none

def entryClosed (o : Option Span) : Prop :=
  ∃ sp, o = some sp ∧ sp.endedAt ≠ none

/-- All timestamps of `sp` lie strictly below the clock, and its end
(when stamped) lies strictly after its start. -/
def clockOk (sp : Span) (c : Nat) : Prop :=
  sp.startedAt < c ∧ ∀ e, sp.endedAt = some e → sp.startedAt < e ∧ e < c

/-- Each dictionary entry records a span of its key's level. -/
def entryLevelsOk (s : OtelState) : Prop :=
  (∀ sp, s.pb = some sp → sp.level = .playbook) ∧
  (∀ sp, s.pl = some sp → sp.level = .play) ∧
  (∀ sp, s.tk = some sp → sp.level = .task) ∧
  (∀ sp, s.rn = some sp → sp.level = .runner)

/-- Agreement on every field the tracing backend receives that later
code may still consult: identity, linkage and timestamps. -/
def coreEq (a b : Span) : Prop :=
  b.sid = a.sid ∧ b.traceId = a.traceId ∧ b.level = a.level ∧
  b.parentSid = a.parentSid ∧ b.startedAt = a.startedAt ∧ b.endedAt = a.endedAt

/-- Every ended dictionary entry has an exported snapshot agreeing on
its core fields (the snapshot was taken when the end was stamped). -/
def twinOk (s : OtelState) : Prop :=
  ∀ l sp, s.getEntry l = some sp → sp.endedAt ≠ none →
    ∃ q, q ∈ s.finished ∧ coreEq sp q

/-- One evolution step of a recorded span as the handlers may perform
it before instant `c`: identity, linkage and start time are unchanged,
and the end timestamp is either unchanged or freshly stamped at `c` or
later (the stamp of a span that was still open). -/
def mutOk (c : Nat) (p q : Span) : Prop :=
  q.sid = p.sid ∧ q.level = p.level ∧ q.parentSid = p.parentSid ∧
  q.startedAt = p.startedAt ∧
  (q.endedAt = p.endedAt ∨ (p.endedAt = none ∧ ∃ e, q.endedAt = some e ∧ c ≤ e))

/-- Which entries are present and open in each automaton mode. -/
def modeTable : Mode → OtelState → Prop
  | .m0, s => s.pb = none ∧ s.pl = none ∧ s.tk = none ∧ s.rn = none
  | .m1, s => entryOpen s.pb ∧ s.pl = none ∧ s.tk = none ∧ s.rn = none
  | .m2, s => entryOpen s.pb ∧ entryOpen s.pl ∧
      entryClosedOrAbsent s.tk ∧ entryClosedOrAbsent s.rn
  | .m3, s => entryOpen s.pb ∧ entryOpen s.pl ∧ entryOpen s.tk ∧
      entryClosedOrAbsent s.rn
  | .m4, s => entryOpen s.pb ∧ entryOpen s.pl ∧ entryOpen s.tk ∧ entryOpen s.rn
  | .m5, s => entryOpen s.pb ∧ entryOpen s.pl ∧ entryOpen s.tk ∧ entryClosed s.rn
  | .done, s => entryClosed s.pb ∧ entryClosedOrAbsent s.pl ∧
      entryClosedOrAbsent s.tk ∧ entryClosedOrAbsent s.rn

/-- The banner is printed exactly once, from the playbook entry's trace
id, and only once stats has run. -/
def outputOk (m : Mode) (s : OtelState) : Prop :=
  (m ≠ .done → s.output = []) ∧
  (m = .done → ∃ sp, s.pb = some sp ∧
    s.output = ["TRACE ID [" ++ format_trace_id sp.traceId ++ "]"])

/-- The full invariant carried through a valid notification stream. -/
def Inv (m : Mode) (s : OtelState) : Prop :=
  (∀ sp, sp ∈ allSpans s → clockOk sp s.clock) ∧
  (∀ sp, sp ∈ allSpans s → parentProp sp (allSpans s)) ∧
  entryLevelsOk s ∧ twinOk s ∧ modeTable m s ∧ outputOk m s

/-- The state after `startSpan` bumped the clock and id counter and the
handler stored the freshly created span at level `l`. -/
def afterStart (s : OtelState) (l : Level) (np : Span) : OtelState :=
  ({ s with clock := s.clock + 1, nextSid := s.nextSid + 1 } : OtelState).setEntry l np

/-- The id of the entry at level `l` when it is present and open. -/
def openSid (s : OtelState) (l : Level) : List Nat :=
  match s.getEntry l with
  | some sp => if sp.endedAt = none then [sp.sid] else []
  | none => []

/-- Concrete fixtures used by witnesses and counterexamples. -/
def exPlaybook : Playbook := ⟨"workdir", "site.yml"⟩

def exPlay : Play := ⟨"webservers", "all", [("HTTP_PROXY", "p")], [("x", "1")]⟩

def exTask : Task := ⟨"copy config", "copy", [("dest", "/tmp/a")], [[("FOO", "bar")]]⟩

def exResult : TaskResult := ⟨"connection refused"⟩

/-- A playbook run in which one task execution fails and the run
continues to its stats notification. -/
def exSeq : List Notif :=
  [.playbookStart exPlaybook, .playStart exPlay, .taskStart exTask,
   .runnerStart "h1" exTask, .runnerFailed exResult false, .stats]

def exFinal : OtelState := (runSeq initState exSeq).getD initState

/-- The state right after the runner span opened (before the failure). -/
def exMid : OtelState := (runSeq initState (exSeq.take 4)).getD initState

def dummySpan : Span := ⟨0, 0, "t", .task, none, [], .unset, [], 0, none, 0⟩

def exRunnerSpan : Span := exMid.rn.getD dummySpan

def exTaskSpan : Span := exMid.tk.getD dummySpan

/-- The state right after the execution-failed notification. -/
def exAfterFail : OtelState := (runSeq initState (exSeq.take 5)).getD initState

def exRunnerAfterFail : Span := exAfterFail.rn.getD dummySpan

def exRunnerFinal : Span := exFinal.rn.getD dummySpan

/-- A fresh span as `tracer.start_span` would hand to the attribute
setters (no attributes yet). -/
def exFreshTaskSpan : Span := ⟨2, 0, "copy config", .task, some 1, [], .unset, [], 2, none, 0⟩

def exPbSpan : Span := exMid.pb.getD dummySpan

/-- The state after two consecutive playbook-start notifications. -/
def exDoublePb : OtelState :=
  (runSeq initState [.playbookStart exPlaybook, .playbookStart exPlaybook]).getD initState

/-- A sample span recorded by the run `exSeq`: the exported snapshot of
the task span. -/
def exSpanX : Span := ((allSpans exFinal).get? 1).getD dummySpan

/-- The state after a playbook start followed by one stats call. -/
def exStats1 : OtelState :=
  (v2_playbook_on_stats (v2_playbook_on_start initState exPlaybook)).getD initState

/-- The state after a second, back-to-back stats call. -/
def exStats2 : OtelState := (v2_playbook_on_stats exStats1).getD initState

theorem getEntry_setEntry_same (s : OtelState) (l : Level) (sp : Span) :
    (s.setEntry l sp).getEntry l = some sp := by
  cases l <;> rfl

theorem getEntry_setEntry_ne (s : OtelState) (l l' : Level) (sp : Span)
    (h : l' ≠ l) : (s.setEntry l sp).getEntry l' = s.getEntry l' := by
  cases l <;> cases l' <;> simp_all [OtelState.setEntry, OtelState.getEntry]

theorem setEntry_finished (s : OtelState) (l : Level) (sp : Span) :
    (s.setEntry l sp).finished = s.finished := by
  cases l <;> rfl

theorem setEntry_clock (s : OtelState) (l : Level) (sp : Span) :
    (s.setEntry l sp).clock = s.clock := by
  cases l <;> rfl

theorem setEntry_nextSid (s : OtelState) (l : Level) (sp : Span) :
    (s.setEntry l sp).nextSid = s.nextSid := by
  cases l <;> rfl

theorem setEntry_output (s : OtelState) (l : Level) (sp : Span) :
    (s.setEntry l sp).output = s.output := by
  cases l <;> rfl

theorem endIfPresent_absent (s : OtelState) (l : Level)
    (h : s.getEntry l = none) : endIfPresent s l = s := by
  unfold endIfPresent
  rw [h]

theorem getEntry_withFinishedClock (x : OtelState) (f : List Span) (c : Nat)
    (l : Level) :
    ({ x with finished := f, clock := c } : OtelState).getEntry l = x.getEntry l := by
  cases l <;> rfl

theorem endIfPresent_open (s : OtelState) (l : Level) (sp : Span)
    (h : s.getEntry l = some sp) (he : sp.endedAt = none) :
    endIfPresent s l =
      { s.setEntry l { sp with endedAt := some s.clock, endCalls := sp.endCalls + 1 } with
        finished := s.finished ++ [{ sp with endedAt := some s.clock, endCalls := sp.endCalls + 1 }],
        clock := s.clock + 1 } := by
  unfold endIfPresent
  simp only [h, he]
  cases l <;> rfl

theorem endIfPresent_closed (s : OtelState) (l : Level) (sp : Span) (e : Nat)
    (h : s.getEntry l = some sp) (he : sp.endedAt = some e) :
    endIfPresent s l = s.setEntry l { sp with endCalls := sp.endCalls + 1 } := by
  unfold endIfPresent
  simp only [h, he]

theorem endIfPresent_getEntry_ne (s : OtelState) (l l' : Level) (h : l' ≠ l) :
    (endIfPresent s l).getEntry l' = s.getEntry l' := by
  cases hg : s.getEntry l with
  | none => rw [endIfPresent_absent s l hg]
  | some sp =>
    cases he : sp.endedAt with
    | none =>
      rw [endIfPresent_open s l sp hg he]
      have := getEntry_setEntry_ne s l l'
        { sp with endedAt := some s.clock, endCalls := sp.endCalls + 1 } h
      cases l <;> cases l' <;> simp_all [OtelState.setEntry, OtelState.getEntry]
    | some e =>
      rw [endIfPresent_closed s l sp e hg he]
      exact getEntry_setEntry_ne s l l' _ h

theorem endIfPresent_nextSid (s : OtelState) (l : Level) :
    (endIfPresent s l).nextSid = s.nextSid := by
  cases hg : s.getEntry l with
  | none => rw [endIfPresent_absent s l hg]
  | some sp =>
    cases he : sp.endedAt with
    | none =>
      rw [endIfPresent_open s l sp hg he]
      cases l <;> rfl
    | some e =>
      rw [endIfPresent_closed s l sp e hg he]
      exact setEntry_nextSid s l _

theorem endIfPresent_output (s : OtelState) (l : Level) :
    (endIfPresent s l).output = s.output := by
  cases hg : s.getEntry l with
  | none => rw [endIfPresent_absent s l hg]
  | some sp =>
    cases he : sp.endedAt with
    | none =>
      rw [endIfPresent_open s l sp hg he]
      cases l <;> rfl
    | some e =>
      rw [endIfPresent_closed s l sp e hg he]
      exact setEntry_output s l _

theorem endIfPresent_clock_le (s : OtelState) (l : Level) :
    s.clock ≤ (endIfPresent s l).clock := by
  cases hg : s.getEntry l with
  | none => rw [endIfPresent_absent s l hg]
  | some sp =>
    cases he : sp.endedAt with
    | none =>
      rw [endIfPresent_open s l sp hg he]
      exact Nat.le_succ _
    | some e =>
      rw [endIfPresent_closed s l sp e hg he]
      rw [setEntry_clock]

theorem endIfPresent_finished_map (s : OtelState) (l : Level) :
    (endIfPresent s l).finished.map Span.sid =
      s.finished.map Span.sid ++ openSid s l := by
  cases hg : s.getEntry l with
  | none =>
    rw [endIfPresent_absent s l hg]
    simp [openSid, hg]
  | some sp =>
    cases he : sp.endedAt with
    | none =>
      rw [endIfPresent_open s l sp hg he]
      simp [openSid, hg, he]
    | some e =>
      rw [endIfPresent_closed s l sp e hg he, setEntry_finished]
      simp [openSid, hg, he]

theorem endIfPresent_new_stamps (s : OtelState) (l : Level) :
    ∀ q ∈ (endIfPresent s l).finished.drop s.finished.length,
      ∃ e, q.endedAt = some e ∧ s.clock ≤ e ∧ e < (endIfPresent s l).clock := by
  cases hg : s.getEntry l with
  | none =>
    rw [endIfPresent_absent s l hg]
    simp [List.drop_length]
  | some sp =>
    cases he : sp.endedAt with
    | none =>
      rw [endIfPresent_open s l sp hg he]
      simp
    | some e =>
      rw [endIfPresent_closed s l sp e hg he, setEntry_finished]
      simp [List.drop_length]

theorem endIfPresent_closes (s : OtelState) (l : Level) :
    entryClosedOrAbsent ((endIfPresent s l).getEntry l) := by
  cases hg : s.getEntry l with
  | none =>
    rw [endIfPresent_absent s l hg]
    intro sp h
    rw [hg] at h
    cases h
  | some sp =>
    cases he : sp.endedAt with
    | none =>
      rw [endIfPresent_open s l sp hg he, getEntry_withFinishedClock,
        getEntry_setEntry_same]
      intro sp' h
      cases h
      simp
    | some e =>
      rw [endIfPresent_closed s l sp e hg he]
      intro sp' h
      rw [getEntry_setEntry_same] at h
      cases h
      simp [he]

theorem endIfPresent_presence (s : OtelState) (l : Level) :
    ((endIfPresent s l).getEntry l).isSome = (s.getEntry l).isSome := by
  cases hg : s.getEntry l with
  | none => rw [endIfPresent_absent s l hg, hg]
  | some sp =>
    cases he : sp.endedAt with
    | none =>
      rw [endIfPresent_open s l sp hg he, getEntry_withFinishedClock,
        getEntry_setEntry_same]
      rfl
    | some e =>
      rw [endIfPresent_closed s l sp e hg he, getEntry_setEntry_same]
      rfl

theorem endIfPresent_closed_present (s : OtelState) (l : Level) (sp : Span)
    (h : s.getEntry l = some sp) :
    entryClosed ((endIfPresent s l).getEntry l) := by
  cases he : sp.endedAt with
  | none =>
    rw [endIfPresent_open s l sp h he, getEntry_withFinishedClock,
      getEntry_setEntry_same]
    exact ⟨_, rfl, by simp⟩
  | some e =>
    rw [endIfPresent_closed s l sp e h he]
    exact ⟨_, getEntry_setEntry_same s l _, by simp [he]⟩

theorem playStart_isSome (s : OtelState) (play : Play) :
    (v2_playbook_on_play_start s play).isSome = s.pb.isSome := by
  have h : (endIfPresent (endIfPresent (endIfPresent s .runner) .task)
      .play).getEntry .playbook = s.pb := by
    rw [endIfPresent_getEntry_ne _ _ _ (by decide),
      endIfPresent_getEntry_ne _ _ _ (by decide),
      endIfPresent_getEntry_ne _ _ _ (by decide)]
    rfl
  simp only [v2_playbook_on_play_start, h]
  cases s.pb <;> rfl

theorem taskStart_isSome (s : OtelState) (task : Task) :
    (v2_playbook_on_task_start s task).isSome = s.pl.isSome := by
  have h : (endIfPresent (endIfPresent s .runner) .task).getEntry .play = s.pl := by
    rw [endIfPresent_getEntry_ne _ _ _ (by decide),
      endIfPresent_getEntry_ne _ _ _ (by decide)]
    rfl
  simp only [v2_playbook_on_task_start, h]
  cases s.pl <;> rfl

theorem runnerStart_isSome (s : OtelState) (host : String) (task : Task) :
    (v2_runner_on_start s host task).isSome = s.tk.isSome := by
  have h : (endIfPresent s .runner).getEntry .task = s.tk := by
    rw [endIfPresent_getEntry_ne _ _ _ (by decide)]
    rfl
  simp only [v2_runner_on_start, h]
  cases s.tk <;> rfl

theorem runnerFailed_isSome (s : OtelState) (result : TaskResult) (ign : Bool) :
    (v2_runner_on_failed s result ign).isSome = s.rn.isSome := by
  have h : s.getEntry .runner = s.rn := rfl
  simp only [v2_runner_on_failed, h]
  cases s.rn <;> rfl

theorem stats_isSome (s : OtelState) :
    (v2_playbook_on_stats s).isSome = s.pb.isSome := by
  have h : ((endIfPresent (endIfPresent (endIfPresent (endIfPresent s .runner)
      .task) .play) .playbook).getEntry .playbook).isSome = s.pb.isSome := by
    rw [endIfPresent_presence,
      endIfPresent_getEntry_ne _ _ _ (by decide),
      endIfPresent_getEntry_ne _ _ _ (by decide),
      endIfPresent_getEntry_ne _ _ _ (by decide)]
    rfl
  simp only [v2_playbook_on_stats]
  cases ho : (endIfPresent (endIfPresent (endIfPresent (endIfPresent s .runner)
      .task) .play) .playbook).getEntry .playbook with
  | none =>
    rw [ho] at h
    simp only [ho]
    exact h
  | some sp =>
    rw [ho] at h
    simp only [ho]
    exact h

theorem runnerFailed_open (s : OtelState) (result : TaskResult) (ign : Bool)
    (rsp : Span) (hr : s.rn = some rsp) (he : rsp.endedAt = none) :
    v2_runner_on_failed s result ign =
      some { s with
        rn := some { rsp with
          events := rsp.events ++ [⟨"exception", [("exception.message", result.msg)]⟩],
          status := .error, endedAt := some s.clock, endCalls := rsp.endCalls + 1 },
        finished := s.finished ++ [{ rsp with
          events := rsp.events ++ [⟨"exception", [("exception.message", result.msg)]⟩],
          status := .error, endedAt := some s.clock, endCalls := rsp.endCalls + 1 }],
        clock := s.clock + 1 } := by
  have h : s.getEntry .runner = some rsp := hr
  simp only [v2_runner_on_failed, h, Span.addEvent, Span.setStatus, he,
    Option.isSome_none, Bool.false_eq_true, if_false, OtelState.setEntry]
  rw [endIfPresent_open
    { s with rn := some { rsp with
        events := rsp.events ++ [⟨"exception", [("exception.message", result.msg)]⟩],
        status := .error, endedAt := none } }
    .runner
    { rsp with
      events := rsp.events ++ [⟨"exception", [("exception.message", result.msg)]⟩],
      status := .error, endedAt := none }
    rfl rfl]
  rfl

theorem runnerStart_present (s : OtelState) (host : String) (task : Task)
    (tsp : Span) (ht : s.tk = some tsp) :
    ∃ s', v2_runner_on_start s host task = some s' ∧
      s'.rn = some ⟨s.nextSid, tsp.traceId, task.name ++ " [" ++ host ++ "]",
        .runner, some tsp.sid, [], .unset, [], (endIfPresent s .runner).clock,
        none, 0⟩ ∧
      s'.tk = s.tk ∧ s'.pl = s.pl ∧ s'.pb = s.pb ∧
      s'.nextSid = s.nextSid + 1 := by
  have h : (endIfPresent s .runner).getEntry .task = s.tk := by
    rw [endIfPresent_getEntry_ne _ _ _ (by decide)]
    rfl
  have h2 : (endIfPresent s .runner).nextSid = s.nextSid :=
    endIfPresent_nextSid s .runner
  have h3 : (endIfPresent s .runner).tk = s.tk := h
  have h4 : (endIfPresent s .runner).pl = s.pl :=
    endIfPresent_getEntry_ne s .runner .play (by decide)
  have h5 : (endIfPresent s .runner).pb = s.pb :=
    endIfPresent_getEntry_ne s .runner .playbook (by decide)
  simp only [v2_runner_on_start, h, ht, startSpan, set_runner_attrs]
  refine ⟨_, rfl, ?_, ?_, ?_, ?_, ?_⟩ <;>
    simp [OtelState.setEntry, h2, h3, h4, h5, ht]

theorem setAttribute_fields (sp : Span) (k v : String) :
    (sp.setAttribute k v).sid = sp.sid ∧
    (sp.setAttribute k v).traceId = sp.traceId ∧
    (sp.setAttribute k v).level = sp.level ∧
    (sp.setAttribute k v).parentSid = sp.parentSid ∧
    (sp.setAttribute k v).status = sp.status ∧
    (sp.setAttribute k v).events = sp.events ∧
    (sp.setAttribute k v).startedAt = sp.startedAt ∧
    (sp.setAttribute k v).endedAt = sp.endedAt ∧
    (sp.setAttribute k v).endCalls = sp.endCalls := by
  unfold Span.setAttribute
  split <;> simp

theorem foldl_attr_only {β : Type} (g : Span → β → Span)
    (hg : ∀ sp x, ∃ k v, g sp x = sp.setAttribute k v) (l : List β) :
    ∀ sp : Span,
      (l.foldl g sp).sid = sp.sid ∧
      (l.foldl g sp).traceId = sp.traceId ∧
      (l.foldl g sp).level = sp.level ∧
      (l.foldl g sp).parentSid = sp.parentSid ∧
      (l.foldl g sp).status = sp.status ∧
      (l.foldl g sp).events = sp.events ∧
      (l.foldl g sp).startedAt = sp.startedAt ∧
      (l.foldl g sp).endedAt = sp.endedAt ∧
      (l.foldl g sp).endCalls = sp.endCalls := by
  induction l with
  | nil => intro sp; simp
  | cons x xs ih =>
    intro sp
    simp only [List.foldl_cons]
    obtain ⟨k, v, hkv⟩ := hg sp x
    have h1 := setAttribute_fields sp k v
    have h2 := ih (g sp x)
    rw [hkv] at h2 ⊢
    exact ⟨h2.1.trans h1.1, h2.2.1.trans h1.2.1, h2.2.2.1.trans h1.2.2.1,
      h2.2.2.2.1.trans h1.2.2.2.1, h2.2.2.2.2.1.trans h1.2.2.2.2.1,
      h2.2.2.2.2.2.1.trans h1.2.2.2.2.2.1,
      h2.2.2.2.2.2.2.1.trans h1.2.2.2.2.2.2.1,
      h2.2.2.2.2.2.2.2.1.trans h1.2.2.2.2.2.2.2.1,
      h2.2.2.2.2.2.2.2.2.trans h1.2.2.2.2.2.2.2.2⟩

theorem set_task_attrs_fields (sp : Span) (task : Task) :
    (set_task_attrs sp task).sid = sp.sid ∧
    (set_task_attrs sp task).traceId = sp.traceId ∧
    (set_task_attrs sp task).level = sp.level ∧
    (set_task_attrs sp task).parentSid = sp.parentSid ∧
    (set_task_attrs sp task).status = sp.status ∧
    (set_task_attrs sp task).events = sp.events ∧
    (set_task_attrs sp task).startedAt = sp.startedAt ∧
    (set_task_attrs sp task).endedAt = sp.endedAt ∧
    (set_task_attrs sp task).endCalls = sp.endCalls := by
  unfold set_task_attrs
  have h0 := setAttribute_fields sp "task.action" task.action
  have h1 := foldl_attr_only
    (fun sp p => sp.setAttribute ("task.args." ++ p.1) (pyStr p.2))
    (fun sp x => ⟨_, _, rfl⟩) task.args (sp.setAttribute "task.action" task.action)
  have h2 := foldl_attr_only
    (fun sp p => sp.setAttribute ("environment." ++ p.1) p.2)
    (fun sp x => ⟨_, _, rfl⟩) (flattenEnv task.environment)
    (task.args.foldl (fun sp p => sp.setAttribute ("task.args." ++ p.1) (pyStr p.2))
      (sp.setAttribute "task.action" task.action))
  exact ⟨(h2.1.trans h1.1).trans h0.1, (h2.2.1.trans h1.2.1).trans h0.2.1,
    (h2.2.2.1.trans h1.2.2.1).trans h0.2.2.1,
    (h2.2.2.2.1.trans h1.2.2.2.1).trans h0.2.2.2.1,
    (h2.2.2.2.2.1.trans h1.2.2.2.2.1).trans h0.2.2.2.2.1,
    (h2.2.2.2.2.2.1.trans h1.2.2.2.2.2.1).trans h0.2.2.2.2.2.1,
    (h2.2.2.2.2.2.2.1.trans h1.2.2.2.2.2.2.1).trans h0.2.2.2.2.2.2.1,
    (h2.2.2.2.2.2.2.2.1.trans h1.2.2.2.2.2.2.2.1).trans h0.2.2.2.2.2.2.2.1,
    (h2.2.2.2.2.2.2.2.2.trans h1.2.2.2.2.2.2.2.2).trans h0.2.2.2.2.2.2.2.2⟩

theorem set_play_attrs_fields (sp : Span) (play : Play) :
    (set_play_attrs sp play).sid = sp.sid ∧
    (set_play_attrs sp play).traceId = sp.traceId ∧
    (set_play_attrs sp play).level = sp.level ∧
    (set_play_attrs sp play).parentSid = sp.parentSid ∧
    (set_play_attrs sp play).status = sp.status ∧
    (set_play_attrs sp play).events = sp.events ∧
    (set_play_attrs sp play).startedAt = sp.startedAt ∧
    (set_play_attrs sp play).endedAt = sp.endedAt ∧
    (set_play_attrs sp play).endCalls = sp.endCalls := by
  unfold set_play_attrs
  have h0 := setAttribute_fields sp "play.hosts" (pyStr play.hosts)
  have h1 := foldl_attr_only
    (fun sp p => sp.setAttribute ("environment." ++ p.1) p.2)
    (fun sp x => ⟨_, _, rfl⟩) play.environment
    (sp.setAttribute "play.hosts" (pyStr play.hosts))
  have h2 := foldl_attr_only
    (fun sp p => sp.setAttribute ("vars." ++ p.1) (pyStr p.2))
    (fun sp x => ⟨_, _, rfl⟩) play.vars
    (play.environment.foldl (fun sp p => sp.setAttribute ("environment." ++ p.1) p.2)
      (sp.setAttribute "play.hosts" (pyStr play.hosts)))
  exact ⟨(h2.1.trans h1.1).trans h0.1, (h2.2.1.trans h1.2.1).trans h0.2.1,
    (h2.2.2.1.trans h1.2.2.1).trans h0.2.2.1,
    (h2.2.2.2.1.trans h1.2.2.2.1).trans h0.2.2.2.1,
    (h2.2.2.2.2.1.trans h1.2.2.2.2.1).trans h0.2.2.2.2.1,
    (h2.2.2.2.2.2.1.trans h1.2.2.2.2.2.1).trans h0.2.2.2.2.2.1,
    (h2.2.2.2.2.2.2.1.trans h1.2.2.2.2.2.2.1).trans h0.2.2.2.2.2.2.1,
    (h2.2.2.2.2.2.2.2.1.trans h1.2.2.2.2.2.2.2.1).trans h0.2.2.2.2.2.2.2.1,
    (h2.2.2.2.2.2.2.2.2.trans h1.2.2.2.2.2.2.2.2).trans h0.2.2.2.2.2.2.2.2⟩

theorem taskStart_present (s : OtelState) (task : Task) (p : Span)
    (hp : s.pl = some p) :
    ∃ s', v2_playbook_on_task_start s task = some s' ∧
      ∃ t, s'.tk = some t ∧ t.parentSid = some p.sid ∧ t.sid = s.nextSid ∧
        t.endedAt = none ∧ t.status = .unset ∧ t.level = .task := by
  have h : (endIfPresent (endIfPresent s .runner) .task).getEntry .play = s.pl := by
    rw [endIfPresent_getEntry_ne _ _ _ (by decide),
      endIfPresent_getEntry_ne _ _ _ (by decide)]
    rfl
  have hns : (endIfPresent (endIfPresent s .runner) .task).nextSid = s.nextSid := by
    rw [endIfPresent_nextSid, endIfPresent_nextSid]
  simp only [v2_playbook_on_task_start, h, hp, startSpan]
  refine ⟨_, rfl, ?_⟩
  have hf := set_task_attrs_fields
    ⟨(endIfPresent (endIfPresent s .runner) .task).nextSid, p.traceId, task.name,
      .task, some p.sid, [], .unset, [],
      (endIfPresent (endIfPresent s .runner) .task).clock, none, 0⟩ task
  exact ⟨_, getEntry_setEntry_same _ .task _, hf.2.2.2.1, hf.1.trans hns,
    hf.2.2.2.2.2.2.2.1, hf.2.2.2.2.1, hf.2.2.1⟩

theorem openSid_endIfPresent_ne (s : OtelState) (l l' : Level) (h : l' ≠ l) :
    openSid (endIfPresent s l) l' = openSid s l' := by
  unfold openSid
  rw [endIfPresent_getEntry_ne s l l' h]

theorem endIfPresent_finished_tail (s : OtelState) (l : Level) :
    ∃ t, (endIfPresent s l).finished = s.finished ++ t ∧
      t.map Span.sid = openSid s l ∧
      ∀ q ∈ t, ∃ e, q.endedAt = some e ∧ s.clock ≤ e ∧
        e < (endIfPresent s l).clock := by
  cases hg : s.getEntry l with
  | none =>
    rw [endIfPresent_absent s l hg]
    exact ⟨[], by simp, by simp [openSid, hg], by simp⟩
  | some sp =>
    cases he : sp.endedAt with
    | none =>
      rw [endIfPresent_open s l sp hg he]
      refine ⟨[{ sp with endedAt := some s.clock, endCalls := sp.endCalls + 1 }],
        rfl, by simp [openSid, hg, he], ?_⟩
      intro q hq
      simp only [List.mem_singleton] at hq
      subst hq
      exact ⟨s.clock, rfl, Nat.le_refl _, Nat.lt_succ_self _⟩
    | some e =>
      rw [endIfPresent_closed s l sp e hg he]
      exact ⟨[], by simp [setEntry_finished], by simp [openSid, hg, he],
        by simp⟩

theorem playStart_closes (s : OtelState) (play : Play) (pbsp : Span)
    (hpb : s.pb = some pbsp) :
    ∃ s', v2_playbook_on_play_start s play = some s' ∧
      ∃ np tail, s'.pl = some np ∧ np.endedAt = none ∧ np.sid = s.nextSid ∧
        s'.finished = s.finished ++ tail ∧
        tail.map Span.sid =
          openSid s .runner ++ openSid s .task ++ openSid s .play ∧
        ∀ q ∈ tail, ∃ e, q.endedAt = some e ∧ e ≤ np.startedAt := by
  obtain ⟨t1, hf1, hm1, hs1⟩ := endIfPresent_finished_tail s .runner
  obtain ⟨t2, hf2, hm2, hs2⟩ :=
    endIfPresent_finished_tail (endIfPresent s .runner) .task
  obtain ⟨t3, hf3, hm3, hs3⟩ :=
    endIfPresent_finished_tail
      (endIfPresent (endIfPresent s .runner) .task) .play
  have hpb3 : (endIfPresent (endIfPresent (endIfPresent s .runner) .task)
      .play).getEntry .playbook = some pbsp := by
    rw [endIfPresent_getEntry_ne _ _ _ (by decide),
      endIfPresent_getEntry_ne _ _ _ (by decide),
      endIfPresent_getEntry_ne _ _ _ (by decide)]
    exact hpb
  have hnext : (endIfPresent (endIfPresent (endIfPresent s .runner) .task)
      .play).nextSid = s.nextSid := by
    rw [endIfPresent_nextSid, endIfPresent_nextSid, endIfPresent_nextSid]
  have hc1 : (endIfPresent s .runner).clock ≤
      (endIfPresent (endIfPresent s .runner) .task).clock :=
    endIfPresent_clock_le _ _
  have hc2 : (endIfPresent (endIfPresent s .runner) .task).clock ≤
      (endIfPresent (endIfPresent (endIfPresent s .runner) .task)
        .play).clock :=
    endIfPresent_clock_le _ _
  simp only [v2_playbook_on_play_start, hpb3, startSpan, Option.map_some']
  have hfields := set_play_attrs_fields
    ⟨(endIfPresent (endIfPresent (endIfPresent s .runner) .task)
        .play).nextSid, pbsp.traceId, "PLAY: " ++ play.name, .play,
      some pbsp.sid, [], .unset, [],
      (endIfPresent (endIfPresent (endIfPresent s .runner) .task)
        .play).clock, none, 0⟩ play
  refine ⟨_, rfl, _, t1 ++ t2 ++ t3, getEntry_setEntry_same _ .play _,
    hfields.2.2.2.2.2.2.2.1, hfields.1.trans hnext, ?_, ?_, ?_⟩
  · rw [setEntry_finished]
    show (endIfPresent (endIfPresent (endIfPresent s .runner) .task)
      .play).finished = s.finished ++ (t1 ++ t2 ++ t3)
    rw [hf3, hf2, hf1]
    simp [List.append_assoc]
  · rw [List.map_append, List.map_append, hm1, hm3]
    rw [show t2.map Span.sid = openSid s .task from hm2.trans
      (openSid_endIfPresent_ne s .runner .task (by decide))]
    rw [show openSid (endIfPresent (endIfPresent s .runner) .task) .play
        = openSid s .play from
      (openSid_endIfPresent_ne _ _ _ (by decide)).trans
        (openSid_endIfPresent_ne _ _ _ (by decide))]
  · intro q hq
    have hstart : (set_play_attrs
        ⟨(endIfPresent (endIfPresent (endIfPresent s .runner) .task)
            .play).nextSid, pbsp.traceId, "PLAY: " ++ play.name, .play,
          some pbsp.sid, [], .unset, [],
          (endIfPresent (endIfPresent (endIfPresent s .runner) .task)
            .play).clock, none, 0⟩ play).startedAt =
        (endIfPresent (endIfPresent (endIfPresent s .runner) .task)
          .play).clock :=
      hfields.2.2.2.2.2.2.1
    rw [hstart]
    rcases List.mem_append.1 hq with hq' | hq3
    · rcases List.mem_append.1 hq' with hq1 | hq2
      · obtain ⟨e, hqe, _, hlt⟩ := hs1 q hq1
        exact ⟨e, hqe, Nat.le_of_lt (Nat.lt_of_lt_of_le hlt
          (Nat.le_trans hc1 hc2))⟩
      · obtain ⟨e, hqe, _, hlt⟩ := hs2 q hq2
        exact ⟨e, hqe, Nat.le_of_lt (Nat.lt_of_lt_of_le hlt hc2)⟩
    · obtain ⟨e, hqe, _, hlt⟩ := hs3 q hq3
      exact ⟨e, hqe, Nat.le_of_lt hlt⟩

theorem taskStart_closes (s : OtelState) (task : Task) (plsp : Span)
    (hpl : s.pl = some plsp) :
    ∃ s', v2_playbook_on_task_start s task = some s' ∧
      ∃ nt tail, s'.tk = some nt ∧ nt.endedAt = none ∧ nt.sid = s.nextSid ∧
        s'.finished = s.finished ++ tail ∧
        tail.map Span.sid = openSid s .runner ++ openSid s .task ∧
        ∀ q ∈ tail, ∃ e, q.endedAt = some e ∧ e ≤ nt.startedAt := by
  obtain ⟨t1, hf1, hm1, hs1⟩ := endIfPresent_finished_tail s .runner
  obtain ⟨t2, hf2, hm2, hs2⟩ :=
    endIfPresent_finished_tail (endIfPresent s .runner) .task
  have hpl2 : (endIfPresent (endIfPresent s .runner) .task).getEntry .play
      = some plsp := by
    rw [endIfPresent_getEntry_ne _ _ _ (by decide),
      endIfPresent_getEntry_ne _ _ _ (by decide)]
    exact hpl
  have hnext : (endIfPresent (endIfPresent s .runner) .task).nextSid
      = s.nextSid := by
    rw [endIfPresent_nextSid, endIfPresent_nextSid]
  have hc1 : (endIfPresent s .runner).clock ≤
      (endIfPresent (endIfPresent s .runner) .task).clock :=
    endIfPresent_clock_le _ _
  simp only [v2_playbook_on_task_start, hpl2, startSpan, Option.map_some']
  have hfields := set_task_attrs_fields
    ⟨(endIfPresent (endIfPresent s .runner) .task).nextSid, plsp.traceId,
      task.name, .task, some plsp.sid, [], .unset, [],
      (endIfPresent (endIfPresent s .runner) .task).clock, none, 0⟩ task
  refine ⟨_, rfl, _, t1 ++ t2, getEntry_setEntry_same _ .task _,
    hfields.2.2.2.2.2.2.2.1, hfields.1.trans hnext, ?_, ?_, ?_⟩
  · rw [setEntry_finished]
    show (endIfPresent (endIfPresent s .runner) .task).finished
      = s.finished ++ (t1 ++ t2)
    rw [hf2, hf1]
    simp [List.append_assoc]
  · rw [List.map_append, hm1]
    rw [show t2.map Span.sid = openSid s .task from hm2.trans
      (openSid_endIfPresent_ne s .runner .task (by decide))]
  · intro q hq
    have hstart : (set_task_attrs
        ⟨(endIfPresent (endIfPresent s .runner) .task).nextSid, plsp.traceId,
          task.name, .task, some plsp.sid, [], .unset, [],
          (endIfPresent (endIfPresent s .runner) .task).clock, none, 0⟩
        task).startedAt =
        (endIfPresent (endIfPresent s .runner) .task).clock :=
      hfields.2.2.2.2.2.2.1
    rw [hstart]
    rcases List.mem_append.1 hq with hq1 | hq2
    · obtain ⟨e, hqe, _, hlt⟩ := hs1 q hq1
      exact ⟨e, hqe, Nat.le_of_lt (Nat.lt_of_lt_of_le hlt hc1)⟩
    · obtain ⟨e, hqe, _, hlt⟩ := hs2 q hq2
      exact ⟨e, hqe, Nat.le_of_lt hlt⟩

theorem runnerStart_closes (s : OtelState) (host : String) (task : Task)
    (tsp : Span) (ht : s.tk = some tsp) :
    ∃ s', v2_runner_on_start s host task = some s' ∧
      ∃ nr tail, s'.rn = some nr ∧ nr.endedAt = none ∧ nr.sid = s.nextSid ∧
        s'.finished = s.finished ++ tail ∧
        tail.map Span.sid = openSid s .runner ∧
        ∀ q ∈ tail, ∃ e, q.endedAt = some e ∧ e ≤ nr.startedAt := by
  obtain ⟨t1, hf1, hm1, hs1⟩ := endIfPresent_finished_tail s .runner
  have ht1 : (endIfPresent s .runner).getEntry .task = some tsp := by
    rw [endIfPresent_getEntry_ne _ _ _ (by decide)]
    exact ht
  have hnext : (endIfPresent s .runner).nextSid = s.nextSid :=
    endIfPresent_nextSid s .runner
  simp only [v2_runner_on_start, ht1, startSpan, set_runner_attrs,
    Option.map_some']
  refine ⟨_, rfl, _, t1, getEntry_setEntry_same _ .runner _, rfl, hnext, ?_,
    hm1, ?_⟩
  · rw [setEntry_finished]
    exact hf1
  · intro q hq
    obtain ⟨e, hqe, _, hlt⟩ := hs1 q hq
    exact ⟨e, hqe, Nat.le_of_lt hlt⟩

theorem clockOk_mono (sp : Span) (c c' : Nat) (h : clockOk sp c)
    (hcc : c ≤ c') : clockOk sp c' := by
  obtain ⟨h1, h2⟩ := h
  refine ⟨Nat.lt_of_lt_of_le h1 hcc, ?_⟩
  intro e he
  obtain ⟨h3, h4⟩ := h2 e he
  exact ⟨h3, Nat.lt_of_lt_of_le h4 hcc⟩

theorem mutOk_refl (c : Nat) (p : Span) : mutOk c p p :=
  ⟨rfl, rfl, rfl, rfl, Or.inl rfl⟩

theorem coreEq_refl (p : Span) : coreEq p p :=
  ⟨rfl, rfl, rfl, rfl, rfl, rfl⟩

theorem mutOk_of_coreEq (c : Nat) (p q : Span) (h : coreEq p q) :
    mutOk c p q :=
  ⟨h.1, h.2.2.1, h.2.2.2.1, h.2.2.2.2.1, Or.inl h.2.2.2.2.2⟩

theorem parentProp_mono (sp : Span) (pool pool' : List Span)
    (hsub : ∀ q, q ∈ pool → q ∈ pool') (h : parentProp sp pool) :
    parentProp sp pool' := by
  refine ⟨h.1, ?_⟩
  intro hnl
  obtain ⟨p, hmem, h1, h2, h3, h4⟩ := h.2 hnl
  exact ⟨p, hsub p hmem, h1, h2, h3, h4⟩

theorem parentProp_transfer (c : Nat) (pool pool' : List Span)
    (hfwd : ∀ p, p ∈ pool → ∃ q, q ∈ pool' ∧ mutOk c p q)
    (hstart : ∀ p, p ∈ pool → p.startedAt < c)
    (p q : Span) (hp : p ∈ pool) (hmut : mutOk c p q)
    (hpp : parentProp p pool) : parentProp q pool' := by
  obtain ⟨hsid, hlev, hpar, hst, _⟩ := hmut
  constructor
  · intro hq
    rw [hlev] at hq
    rw [hpar]
    exact hpp.1 hq
  · intro hq
    rw [hlev] at hq
    obtain ⟨r, hrmem, hrsid, hrlev, hrst, hropen⟩ := hpp.2 hq
    obtain ⟨r', hr'mem, hrmut⟩ := hfwd r hrmem
    obtain ⟨hr'sid, hr'lev, _, hr'st, hr'end⟩ := hrmut
    refine ⟨r', hr'mem, ?_, ?_, ?_, ?_⟩
    · rw [hpar, hrsid, hr'sid]
    · rw [hr'lev, hrlev, hlev]
    · rw [hr'st, hst]
      exact hrst
    · rcases hr'end with heq | ⟨hrnone, e, hre, hce⟩
      · rw [hst]
        unfold openAt at hropen ⊢
        rw [heq]
        exact hropen
      · refine Or.inr ⟨e, hre, ?_⟩
        rw [hst]
        exact Nat.lt_of_lt_of_le (hstart p hp) hce

theorem entry_mem_allSpans (s : OtelState) (l : Level) (sp : Span)
    (h : s.getEntry l = some sp) : sp ∈ allSpans s := by
  cases l <;> simp_all [allSpans, OtelState.getEntry]

theorem finished_mem_allSpans (s : OtelState) (q : Span)
    (hq : q ∈ s.finished) : q ∈ allSpans s := by
  simp [allSpans, hq]

theorem mem_allSpans_setEntry (s : OtelState) (l : Level) (sp' q : Span)
    (hq : q ∈ allSpans (s.setEntry l sp')) : q = sp' ∨ q ∈ allSpans s := by
  cases l <;> simp_all [allSpans, OtelState.setEntry] <;> tauto

theorem mem_allSpans_setEntry_of_mem (s : OtelState) (l : Level)
    (sp sp' q : Span) (hl : s.getEntry l = some sp) (hq : q ∈ allSpans s) :
    q = sp ∨ q ∈ allSpans (s.setEntry l sp') := by
  cases l <;> simp_all [allSpans, OtelState.setEntry, OtelState.getEntry] <;>
    tauto

theorem mem_allSpans_setEntry_superset (s : OtelState) (l : Level)
    (sp' q : Span) (hl : s.getEntry l = none) (hq : q ∈ allSpans s) :
    q ∈ allSpans (s.setEntry l sp') := by
  cases l <;> simp_all [allSpans, OtelState.setEntry, OtelState.getEntry] <;>
    tauto

theorem mem_allSpans_stamp (s : OtelState) (l : Level) (sp' q : Span)
    (hq : q ∈ allSpans { s.setEntry l sp' with
      finished := s.finished ++ [sp'], clock := s.clock + 1 }) :
    q = sp' ∨ q ∈ allSpans s := by
  cases l <;> simp_all [allSpans, OtelState.setEntry] <;> tauto

theorem mem_allSpans_stamp_of_mem (s : OtelState) (l : Level)
    (sp sp' q : Span) (hl : s.getEntry l = some sp) (hq : q ∈ allSpans s) :
    q = sp ∨ q ∈ allSpans { s.setEntry l sp' with
      finished := s.finished ++ [sp'], clock := s.clock + 1 } := by
  cases l <;> simp_all [allSpans, OtelState.setEntry, OtelState.getEntry] <;>
    tauto

theorem stamp_mem_self (s : OtelState) (l : Level) (sp' : Span) :
    sp' ∈ allSpans { s.setEntry l sp' with
      finished := s.finished ++ [sp'], clock := s.clock + 1 } := by
  cases l <;> simp [allSpans, OtelState.setEntry]

theorem setEntry_mem_self (s : OtelState) (l : Level) (sp' : Span) :
    sp' ∈ allSpans (s.setEntry l sp') :=
  entry_mem_allSpans _ l _ (getEntry_setEntry_same s l sp')

theorem entryLevelsOk_setEntry (s : OtelState) (l : Level) (sp : Span)
    (hlev : entryLevelsOk s) (hsp : sp.level = l) :
    entryLevelsOk (s.setEntry l sp) := by
  obtain ⟨h1, h2, h3, h4⟩ := hlev
  cases l <;> refine ⟨?_, ?_, ?_, ?_⟩ <;> intro q hq <;>
    first
      | exact h1 q hq
      | exact h2 q hq
      | exact h3 q hq
      | exact h4 q hq
      | (obtain rfl := Option.some.inj hq; exact hsp)

theorem entry_level_of (s : OtelState) (l : Level) (sp : Span)
    (hlev : entryLevelsOk s) (hg : s.getEntry l = some sp) : sp.level = l := by
  cases l
  · exact hlev.1 sp hg
  · exact hlev.2.1 sp hg
  · exact hlev.2.2.1 sp hg
  · exact hlev.2.2.2 sp hg

theorem inv_endIfPresent (s : OtelState) (l : Level)
    (hclk : ∀ sp, sp ∈ allSpans s → clockOk sp s.clock)
    (hpar : ∀ sp, sp ∈ allSpans s → parentProp sp (allSpans s))
    (hlev : entryLevelsOk s) (htw : twinOk s) :
    (∀ sp, sp ∈ allSpans (endIfPresent s l) →
      clockOk sp (endIfPresent s l).clock) ∧
    (∀ sp, sp ∈ allSpans (endIfPresent s l) →
      parentProp sp (allSpans (endIfPresent s l))) ∧
    entryLevelsOk (endIfPresent s l) ∧ twinOk (endIfPresent s l) := by
  have hstart : ∀ p, p ∈ allSpans s → p.startedAt < s.clock :=
    fun p hp => (hclk p hp).1
  cases hg : s.getEntry l with
  | none =>
    rw [endIfPresent_absent s l hg]
    exact ⟨hclk, hpar, hlev, htw⟩
  | some sp =>
    have hmem := entry_mem_allSpans s l sp hg
    have hlevsp : sp.level = l := entry_level_of s l sp hlev hg
    cases he : sp.endedAt with
    | some e =>
      rw [endIfPresent_closed s l sp e hg he]
      have hfwd : ∀ p, p ∈ allSpans s →
          ∃ q, q ∈ allSpans
            (s.setEntry l { sp with endCalls := sp.endCalls + 1 }) ∧
            mutOk s.clock p q := by
        intro p hp
        rcases mem_allSpans_setEntry_of_mem s l sp
          ({ sp with endCalls := sp.endCalls + 1 } : Span) p hg hp with hps | hm'
        · subst hps
          exact ⟨({ p with endCalls := p.endCalls + 1 }),
            setEntry_mem_self s l _, rfl, rfl, rfl, rfl, Or.inl rfl⟩
        · exact ⟨p, hm', mutOk_refl _ p⟩
      refine ⟨?_, ?_, ?_, ?_⟩
      · intro q hq
        rw [setEntry_clock]
        rcases mem_allSpans_setEntry s l _ q hq with rfl | hq'
        · exact hclk sp hmem
        · exact hclk q hq'
      · intro q hq
        rcases mem_allSpans_setEntry s l _ q hq with rfl | hq'
        · exact parentProp_transfer s.clock (allSpans s) _ hfwd hstart sp _
            hmem ⟨rfl, rfl, rfl, rfl, Or.inl rfl⟩ (hpar sp hmem)
        · exact parentProp_transfer s.clock (allSpans s) _ hfwd hstart q q
            hq' (mutOk_refl _ q) (hpar q hq')
      · exact entryLevelsOk_setEntry s l _ hlev hlevsp
      · intro l' sp' h' hend'
        by_cases hll : l' = l
        · subst hll
          rw [getEntry_setEntry_same] at h'
          obtain rfl := Option.some.inj h'
          obtain ⟨qq, hqmem, hqcore⟩ := htw l' sp hg (by simp [he])
          refine ⟨qq, ?_, hqcore⟩
          rw [setEntry_finished]
          exact hqmem
        · rw [getEntry_setEntry_ne s l l' _ hll] at h'
          obtain ⟨qq, hqmem, hqcore⟩ := htw l' sp' h' hend'
          refine ⟨qq, ?_, hqcore⟩
          rw [setEntry_finished]
          exact hqmem
    | none =>
      rw [endIfPresent_open s l sp hg he]
      have hfwd : ∀ p, p ∈ allSpans s →
          ∃ q, q ∈ allSpans { s.setEntry l { sp with endedAt := some s.clock, endCalls := sp.endCalls + 1 } with finished := s.finished ++ [{ sp with endedAt := some s.clock, endCalls := sp.endCalls + 1 }], clock := s.clock + 1 } ∧
            mutOk s.clock p q := by
        intro p hp
        rcases mem_allSpans_stamp_of_mem s l sp
          ({ sp with endedAt := some s.clock, endCalls := sp.endCalls + 1 } : Span)
          p hg hp with hps | hm'
        · subst hps
          exact ⟨({ p with endedAt := some s.clock, endCalls := p.endCalls + 1 }),
            stamp_mem_self s l _,
            rfl, rfl, rfl, rfl, Or.inr ⟨he, s.clock, rfl, Nat.le_refl _⟩⟩
        · exact ⟨p, hm', mutOk_refl _ p⟩
      refine ⟨?_, ?_, ?_, ?_⟩
      · intro q hq
        rcases mem_allSpans_stamp s l _ q hq with rfl | hq'
        · have hc := hclk sp hmem
          refine ⟨Nat.lt_succ_of_lt hc.1, ?_⟩
          intro e' he'
          obtain rfl := Option.some.inj he'
          exact ⟨hc.1, Nat.lt_succ_self _⟩
        · exact clockOk_mono q s.clock (s.clock + 1) (hclk q hq')
            (Nat.le_succ _)
      · intro q hq
        rcases mem_allSpans_stamp s l _ q hq with rfl | hq'
        · exact parentProp_transfer s.clock (allSpans s) _ hfwd hstart sp _
            hmem ⟨rfl, rfl, rfl, rfl,
              Or.inr ⟨he, s.clock, rfl, Nat.le_refl _⟩⟩ (hpar sp hmem)
        · exact parentProp_transfer s.clock (allSpans s) _ hfwd hstart q q
            hq' (mutOk_refl _ q) (hpar q hq')
      · exact entryLevelsOk_setEntry s l _ hlev hlevsp
      · intro l' sp' h' hend'
        by_cases hll : l' = l
        · subst hll
          rw [getEntry_withFinishedClock, getEntry_setEntry_same] at h'
          obtain rfl := Option.some.inj h'
          exact ⟨_, List.mem_append_right _ (List.mem_singleton_self _),
            coreEq_refl _⟩
        · rw [getEntry_withFinishedClock,
            getEntry_setEntry_ne s l l' _ hll] at h'
          obtain ⟨qq, hqmem, hqcore⟩ := htw l' sp' h' hend'
          exact ⟨qq, List.mem_append_left _ hqmem, hqcore⟩

theorem getEntry_withClockSid (x : OtelState) (c n : Nat) (l : Level) :
    ({ x with clock := c, nextSid := n } : OtelState).getEntry l =
      x.getEntry l := by
  cases l <;> rfl

theorem inv_setFresh (X0 : OtelState) (l : Level) (np psp : Span)
    (hclk : ∀ sp, sp ∈ allSpans X0 → clockOk sp X0.clock)
    (hpar : ∀ sp, sp ∈ allSpans X0 → parentProp sp (allSpans X0))
    (hlev : entryLevelsOk X0) (htw : twinOk X0)
    (hslot : entryClosedOrAbsent (X0.getEntry l))
    (hnpl : np.level = l) (hnpe : np.endedAt = none)
    (hnps : np.startedAt = X0.clock)
    (hlnotpb : l ≠ .playbook)
    (hpsp : X0.getEntry (levelUp l) = some psp)
    (hpspopen : psp.endedAt = none)
    (hnppar : np.parentSid = some psp.sid) :
    (∀ sp, sp ∈ allSpans (afterStart X0 l np) →
      clockOk sp (afterStart X0 l np).clock) ∧
    (∀ sp, sp ∈ allSpans (afterStart X0 l np) →
      parentProp sp (allSpans (afterStart X0 l np))) ∧
    entryLevelsOk (afterStart X0 l np) ∧ twinOk (afterStart X0 l np) ∧
    (afterStart X0 l np).getEntry l = some np ∧
    (∀ l', l' ≠ l → (afterStart X0 l np).getEntry l' = X0.getEntry l') ∧
    (afterStart X0 l np).output = X0.output ∧
    (afterStart X0 l np).clock = X0.clock + 1 := by
  have hstart : ∀ p, p ∈ allSpans X0 → p.startedAt < X0.clock :=
    fun p hp => (hclk p hp).1
  have hget : (afterStart X0 l np).getEntry l = some np :=
    getEntry_setEntry_same _ l np
  have hgetne : ∀ l', l' ≠ l →
      (afterStart X0 l np).getEntry l' = X0.getEntry l' := by
    intro l' hne
    unfold afterStart
    rw [getEntry_setEntry_ne _ l l' np hne, getEntry_withClockSid]
  have hmemsplit : ∀ q, q ∈ allSpans (afterStart X0 l np) →
      q = np ∨ q ∈ allSpans X0 :=
    fun q hq => mem_allSpans_setEntry
      ({ X0 with clock := X0.clock + 1, nextSid := X0.nextSid + 1 }) l np q hq
  have hfwd : ∀ p, p ∈ allSpans X0 →
      ∃ q, q ∈ allSpans (afterStart X0 l np) ∧ mutOk X0.clock p q := by
    intro p hp
    cases hsl : X0.getEntry l with
    | none =>
      refine ⟨p, ?_, mutOk_refl _ p⟩
      exact mem_allSpans_setEntry_superset _ l np p hsl hp
    | some oldsp =>
      rcases mem_allSpans_setEntry_of_mem
          ({ X0 with clock := X0.clock + 1, nextSid := X0.nextSid + 1 } :
            OtelState) l oldsp np p hsl hp with hps | hm'
      · obtain ⟨qq, hqmem, hqcore⟩ := htw l oldsp hsl (hslot oldsp hsl)
        refine ⟨qq, ?_, ?_⟩
        · refine finished_mem_allSpans _ qq ?_
          rw [show (afterStart X0 l np).finished = X0.finished from
            setEntry_finished _ l np]
          exact hqmem
        · rw [hps]
          exact mutOk_of_coreEq _ _ _ hqcore
      · exact ⟨p, hm', mutOk_refl _ p⟩
  have hpspmem : psp ∈ allSpans (afterStart X0 l np) := by
    refine entry_mem_allSpans _ (levelUp l) psp ?_
    rw [hgetne (levelUp l) ?_]
    · exact hpsp
    · intro h
      rw [h] at hpsp
      have := entry_level_of X0 l psp hlev hpsp
      cases l <;> simp_all [levelUp]
  refine ⟨?_, ?_, ?_, ?_, hget, hgetne, setEntry_output _ l np, setEntry_clock _ l np⟩
  · intro q hq
    rw [show (afterStart X0 l np).clock = X0.clock + 1 from setEntry_clock
      ({ X0 with clock := X0.clock + 1, nextSid := X0.nextSid + 1 }) l np]
    rcases hmemsplit q hq with rfl | hq'
    · refine ⟨?_, ?_⟩
      · rw [hnps]
        exact Nat.lt_succ_self _
      · intro e he
        rw [hnpe] at he
        cases he
    · exact clockOk_mono q X0.clock (X0.clock + 1) (hclk q hq') (Nat.le_succ _)
  · intro q hq
    rcases hmemsplit q hq with rfl | hq'
    · constructor
      · intro h
        rw [hnpl] at h
        exact absurd h hlnotpb
      · intro _
        refine ⟨psp, hpspmem, hnppar, ?_, ?_, Or.inl hpspopen⟩
        · rw [entry_level_of X0 (levelUp l) psp hlev hpsp, hnpl]
        · rw [hnps]
          exact hstart psp (entry_mem_allSpans X0 (levelUp l) psp hpsp)
    · exact parentProp_transfer X0.clock (allSpans X0) _ hfwd hstart q q hq'
        (mutOk_refl _ q) (hpar q hq')
  · exact entryLevelsOk_setEntry _ l np hlev hnpl
  · intro l' sp' h' he'
    by_cases hll : l' = l
    · subst hll
      rw [hget] at h'
      obtain rfl := Option.some.inj h'
      exact absurd hnpe he'
    · rw [hgetne l' hll] at h'
      obtain ⟨qq, hqmem, hqcore⟩ := htw l' sp' h' he'
      refine ⟨qq, ?_, hqcore⟩
      rw [show (afterStart X0 l np).finished = X0.finished from
        setEntry_finished _ l np]
      exact hqmem

theorem inv_pbStart (s : OtelState) (pbk : Playbook)
    (hclk : ∀ sp, sp ∈ allSpans s → clockOk sp s.clock)
    (hpar : ∀ sp, sp ∈ allSpans s → parentProp sp (allSpans s))
    (hlev : entryLevelsOk s) (htw : twinOk s)
    (htab : modeTable .m0 s) (hout : s.output = []) :
    Inv .m1 (v2_playbook_on_start s pbk) := by
  obtain ⟨hpb, hpl, htk, hrn⟩ := htab
  show Inv .m1 (afterStart s .playbook
    ⟨s.nextSid, s.nextSid, path_join (basename pbk.basedir) pbk.file_name,
      .playbook, none, [], .unset, [], s.clock, none, 0⟩)
  have hgetne : ∀ l', l' ≠ .playbook →
      (afterStart s .playbook
        ⟨s.nextSid, s.nextSid, path_join (basename pbk.basedir) pbk.file_name,
          .playbook, none, [], .unset, [], s.clock, none, 0⟩).getEntry l' =
      s.getEntry l' := by
    intro l' hne
    unfold afterStart
    rw [getEntry_setEntry_ne _ _ l' _ hne, getEntry_withClockSid]
  refine ⟨?_, ?_, ?_, ?_, ?_, ?_⟩
  · intro q hq
    rw [show (afterStart s .playbook
        ⟨s.nextSid, s.nextSid, path_join (basename pbk.basedir) pbk.file_name,
          .playbook, none, [], .unset, [], s.clock, none, 0⟩).clock =
        s.clock + 1 from rfl]
    rcases mem_allSpans_setEntry
      ({ s with clock := s.clock + 1, nextSid := s.nextSid + 1 }) .playbook
      _ q hq with rfl | hq'
    · exact ⟨Nat.lt_succ_self _, fun e he => by cases he⟩
    · exact clockOk_mono q s.clock (s.clock + 1) (hclk q hq') (Nat.le_succ _)
  · intro q hq
    rcases mem_allSpans_setEntry
      ({ s with clock := s.clock + 1, nextSid := s.nextSid + 1 }) .playbook
      _ q hq with rfl | hq'
    · exact ⟨fun _ => rfl, fun h => absurd rfl h⟩
    · refine parentProp_mono q (allSpans s) _ ?_ (hpar q hq')
      intro r hr
      exact mem_allSpans_setEntry_superset
        ({ s with clock := s.clock + 1, nextSid := s.nextSid + 1 }) .playbook
        _ r hpb hr
  · exact entryLevelsOk_setEntry _ .playbook _ hlev rfl
  · intro l' sp' h' he'
    by_cases hll : l' = .playbook
    · subst hll
      unfold afterStart at h'
      rw [getEntry_setEntry_same] at h'
      obtain rfl := Option.some.inj h'
      exact absurd rfl he'
    · rw [hgetne l' hll] at h'
      obtain ⟨qq, hqmem, hqcore⟩ := htw l' sp' h' he'
      exact ⟨qq, hqmem, hqcore⟩
  · refine ⟨⟨_, getEntry_setEntry_same _ .playbook _, rfl⟩, ?_, ?_, ?_⟩
    · rw [show (afterStart s .playbook
        ⟨s.nextSid, s.nextSid, path_join (basename pbk.basedir) pbk.file_name,
          .playbook, none, [], .unset, [], s.clock, none, 0⟩).pl =
        s.getEntry .play from hgetne .play (by decide)]
      exact hpl
    · rw [show (afterStart s .playbook
        ⟨s.nextSid, s.nextSid, path_join (basename pbk.basedir) pbk.file_name,
          .playbook, none, [], .unset, [], s.clock, none, 0⟩).tk =
        s.getEntry .task from hgetne .task (by decide)]
      exact htk
    · rw [show (afterStart s .playbook
        ⟨s.nextSid, s.nextSid, path_join (basename pbk.basedir) pbk.file_name,
          .playbook, none, [], .unset, [], s.clock, none, 0⟩).rn =
        s.getEntry .runner from hgetne .runner (by decide)]
      exact hrn
  · refine ⟨fun _ => ?_, fun h => Mode.noConfusion h⟩
    rw [show (afterStart s .playbook
      ⟨s.nextSid, s.nextSid, path_join (basename pbk.basedir) pbk.file_name,
        .playbook, none, [], .unset, [], s.clock, none, 0⟩).output =
      s.output from rfl]
    exact hout

theorem inv_playStart (s : OtelState) (play : Play)
    (hclk : ∀ sp, sp ∈ allSpans s → clockOk sp s.clock)
    (hpar : ∀ sp, sp ∈ allSpans s → parentProp sp (allSpans s))
    (hlev : entryLevelsOk s) (htw : twinOk s)
    (hpb : entryOpen s.pb) (hout : s.output = []) :
    ∃ s', v2_playbook_on_play_start s play = some s' ∧ Inv .m2 s' := by
  obtain ⟨pbsp, hpbs, hpbopen⟩ := hpb
  obtain ⟨k1, p1, l1, t1⟩ := inv_endIfPresent s .runner hclk hpar hlev htw
  obtain ⟨k2, p2, l2, t2⟩ :=
    inv_endIfPresent (endIfPresent s .runner) .task k1 p1 l1 t1
  obtain ⟨k3, p3, l3, t3⟩ := inv_endIfPresent
    (endIfPresent (endIfPresent s .runner) .task) .play k2 p2 l2 t2
  have hpb3 : (endIfPresent (endIfPresent (endIfPresent s .runner) .task)
      .play).getEntry .playbook = some pbsp := by
    rw [endIfPresent_getEntry_ne _ _ _ (by decide),
      endIfPresent_getEntry_ne _ _ _ (by decide),
      endIfPresent_getEntry_ne _ _ _ (by decide)]
    exact hpbs
  have hslot3 : entryClosedOrAbsent ((endIfPresent (endIfPresent
      (endIfPresent s .runner) .task) .play).getEntry .play) :=
    endIfPresent_closes _ .play
  have htk3 : entryClosedOrAbsent ((endIfPresent (endIfPresent
      (endIfPresent s .runner) .task) .play).getEntry .task) := by
    rw [endIfPresent_getEntry_ne _ _ _ (by decide)]
    exact endIfPresent_closes _ .task
  have hrn3 : entryClosedOrAbsent ((endIfPresent (endIfPresent
      (endIfPresent s .runner) .task) .play).getEntry .runner) := by
    rw [endIfPresent_getEntry_ne _ _ _ (by decide),
      endIfPresent_getEntry_ne _ _ _ (by decide)]
    exact endIfPresent_closes _ .runner
  have hout3 : (endIfPresent (endIfPresent (endIfPresent s .runner) .task)
      .play).output = [] := by
    rw [endIfPresent_output, endIfPresent_output, endIfPresent_output]
    exact hout
  have hfields := set_play_attrs_fields
    ⟨(endIfPresent (endIfPresent (endIfPresent s .runner) .task)
        .play).nextSid, pbsp.traceId, "PLAY: " ++ play.name, .play,
      some pbsp.sid, [], .unset, [],
      (endIfPresent (endIfPresent (endIfPresent s .runner) .task)
        .play).clock, none, 0⟩ play
  obtain ⟨C1, C2, C3, C4, Cget, Cgetne, Cout, Cclock⟩ := inv_setFresh
    (endIfPresent (endIfPresent (endIfPresent s .runner) .task) .play) .play
    (set_play_attrs
      ⟨(endIfPresent (endIfPresent (endIfPresent s .runner) .task)
          .play).nextSid, pbsp.traceId, "PLAY: " ++ play.name, .play,
        some pbsp.sid, [], .unset, [],
        (endIfPresent (endIfPresent (endIfPresent s .runner) .task)
          .play).clock, none, 0⟩ play)
    pbsp k3 p3 l3 t3 hslot3 hfields.2.2.1 hfields.2.2.2.2.2.2.2.1
    hfields.2.2.2.2.2.2.1 (by decide) hpb3 hpbopen hfields.2.2.2.1
  simp only [v2_playbook_on_play_start, hpb3, startSpan, Option.map_some']
  refine ⟨_, rfl, C1, C2, C3, C4, ?_, ?_⟩
  · refine ⟨⟨pbsp, (Cgetne .playbook (by decide)).trans hpb3, hpbopen⟩,
      ⟨_, Cget, hfields.2.2.2.2.2.2.2.1⟩, ?_, ?_⟩
    · intro q hq
      exact htk3 q ((Cgetne .task (by decide)).symm.trans hq)
    · intro q hq
      exact hrn3 q ((Cgetne .runner (by decide)).symm.trans hq)
  · exact ⟨fun _ => Cout.trans hout3, fun h => Mode.noConfusion h⟩

theorem inv_taskStart (s : OtelState) (task : Task)
    (hclk : ∀ sp, sp ∈ allSpans s → clockOk sp s.clock)
    (hpar : ∀ sp, sp ∈ allSpans s → parentProp sp (allSpans s))
    (hlev : entryLevelsOk s) (htw : twinOk s)
    (hpb : entryOpen s.pb) (hpl : entryOpen s.pl) (hout : s.output = []) :
    ∃ s', v2_playbook_on_task_start s task = some s' ∧ Inv .m3 s' := by
  obtain ⟨pbsp, hpbs, hpbopen⟩ := hpb
  obtain ⟨plsp, hpls, hplopen⟩ := hpl
  obtain ⟨k1, p1, l1, t1⟩ := inv_endIfPresent s .runner hclk hpar hlev htw
  obtain ⟨k2, p2, l2, t2⟩ :=
    inv_endIfPresent (endIfPresent s .runner) .task k1 p1 l1 t1
  have hpb2 : (endIfPresent (endIfPresent s .runner) .task).getEntry
      .playbook = some pbsp := by
    rw [endIfPresent_getEntry_ne _ _ _ (by decide),
      endIfPresent_getEntry_ne _ _ _ (by decide)]
    exact hpbs
  have hpl2 : (endIfPresent (endIfPresent s .runner) .task).getEntry
      .play = some plsp := by
    rw [endIfPresent_getEntry_ne _ _ _ (by decide),
      endIfPresent_getEntry_ne _ _ _ (by decide)]
    exact hpls
  have hslot2 : entryClosedOrAbsent ((endIfPresent (endIfPresent s .runner)
      .task).getEntry .task) :=
    endIfPresent_closes _ .task
  have hrn2 : entryClosedOrAbsent ((endIfPresent (endIfPresent s .runner)
      .task).getEntry .runner) := by
    rw [endIfPresent_getEntry_ne _ _ _ (by decide)]
    exact endIfPresent_closes _ .runner
  have hout2 : (endIfPresent (endIfPresent s .runner) .task).output = [] := by
    rw [endIfPresent_output, endIfPresent_output]
    exact hout
  have hfields := set_task_attrs_fields
    ⟨(endIfPresent (endIfPresent s .runner) .task).nextSid, plsp.traceId,
      task.name, .task, some plsp.sid, [], .unset, [],
      (endIfPresent (endIfPresent s .runner) .task).clock, none, 0⟩ task
  obtain ⟨C1, C2, C3, C4, Cget, Cgetne, Cout, Cclock⟩ := inv_setFresh
    (endIfPresent (endIfPresent s .runner) .task) .task
    (set_task_attrs
      ⟨(endIfPresent (endIfPresent s .runner) .task).nextSid, plsp.traceId,
        task.name, .task, some plsp.sid, [], .unset, [],
        (endIfPresent (endIfPresent s .runner) .task).clock, none, 0⟩ task)
    plsp k2 p2 l2 t2 hslot2 hfields.2.2.1 hfields.2.2.2.2.2.2.2.1
    hfields.2.2.2.2.2.2.1 (by decide) hpl2 hplopen hfields.2.2.2.1
  simp only [v2_playbook_on_task_start, hpl2, startSpan, Option.map_some']
  refine ⟨_, rfl, C1, C2, C3, C4, ?_, ?_⟩
  · refine ⟨⟨pbsp, (Cgetne .playbook (by decide)).trans hpb2, hpbopen⟩,
      ⟨plsp, (Cgetne .play (by decide)).trans hpl2, hplopen⟩,
      ⟨_, Cget, hfields.2.2.2.2.2.2.2.1⟩, ?_⟩
    intro q hq
    exact hrn2 q ((Cgetne .runner (by decide)).symm.trans hq)
  · exact ⟨fun _ => Cout.trans hout2, fun h => Mode.noConfusion h⟩

theorem inv_runnerStart (s : OtelState) (host : String) (task : Task)
    (hclk : ∀ sp, sp ∈ allSpans s → clockOk sp s.clock)
    (hpar : ∀ sp, sp ∈ allSpans s → parentProp sp (allSpans s))
    (hlev : entryLevelsOk s) (htw : twinOk s)
    (hpb : entryOpen s.pb) (hpl : entryOpen s.pl) (htk : entryOpen s.tk)
    (hout : s.output = []) :
    ∃ s', v2_runner_on_start s host task = some s' ∧ Inv .m4 s' := by
  obtain ⟨pbsp, hpbs, hpbopen⟩ := hpb
  obtain ⟨plsp, hpls, hplopen⟩ := hpl
  obtain ⟨tsp, hts, htopen⟩ := htk
  obtain ⟨k1, p1, l1, t1⟩ := inv_endIfPresent s .runner hclk hpar hlev htw
  have hpb1 : (endIfPresent s .runner).getEntry .playbook = some pbsp := by
    rw [endIfPresent_getEntry_ne _ _ _ (by decide)]
    exact hpbs
  have hpl1 : (endIfPresent s .runner).getEntry .play = some plsp := by
    rw [endIfPresent_getEntry_ne _ _ _ (by decide)]
    exact hpls
  have htk1 : (endIfPresent s .runner).getEntry .task = some tsp := by
    rw [endIfPresent_getEntry_ne _ _ _ (by decide)]
    exact hts
  have hslot1 : entryClosedOrAbsent ((endIfPresent s .runner).getEntry
      .runner) :=
    endIfPresent_closes _ .runner
  have hout1 : (endIfPresent s .runner).output = [] := by
    rw [endIfPresent_output]
    exact hout
  obtain ⟨C1, C2, C3, C4, Cget, Cgetne, Cout, Cclock⟩ := inv_setFresh
    (endIfPresent s .runner) .runner
    ⟨(endIfPresent s .runner).nextSid, tsp.traceId,
      task.name ++ " [" ++ host ++ "]", .runner, some tsp.sid, [], .unset,
      [], (endIfPresent s .runner).clock, none, 0⟩
    tsp k1 p1 l1 t1 hslot1 rfl rfl rfl (by decide) htk1 htopen rfl
  simp only [v2_runner_on_start, htk1, startSpan, set_runner_attrs,
    Option.map_some']
  refine ⟨_, rfl, C1, C2, C3, C4, ?_, ?_⟩
  · exact ⟨⟨pbsp, (Cgetne .playbook (by decide)).trans hpb1, hpbopen⟩,
      ⟨plsp, (Cgetne .play (by decide)).trans hpl1, hplopen⟩,
      ⟨tsp, (Cgetne .task (by decide)).trans htk1, htopen⟩,
      ⟨_, Cget, rfl⟩⟩
  · exact ⟨fun _ => Cout.trans hout1, fun h => Mode.noConfusion h⟩

theorem coreEq_symm (a b : Span) (h : coreEq a b) : coreEq b a :=
  ⟨h.1.symm, h.2.1.symm, h.2.2.1.symm, h.2.2.2.1.symm, h.2.2.2.2.1.symm,
    h.2.2.2.2.2.symm⟩

theorem coreEq_trans (a b c : Span) (h1 : coreEq a b) (h2 : coreEq b c) :
    coreEq a c :=
  ⟨h2.1.trans h1.1, h2.2.1.trans h1.2.1, h2.2.2.1.trans h1.2.2.1,
    h2.2.2.2.1.trans h1.2.2.2.1, h2.2.2.2.2.1.trans h1.2.2.2.2.1,
    h2.2.2.2.2.2.trans h1.2.2.2.2.2⟩

theorem addEvent_coreEq (sp : Span) (n : String)
    (a : List (String × String)) : coreEq sp (sp.addEvent n a) := by
  unfold Span.addEvent
  split <;> exact ⟨rfl, rfl, rfl, rfl, rfl, rfl⟩

theorem setStatus_coreEq (sp : Span) (c : SpanStatus) :
    coreEq sp (sp.setStatus c) := by
  unfold Span.setStatus
  split <;> exact ⟨rfl, rfl, rfl, rfl, rfl, rfl⟩

theorem inv_replaceEntry (s : OtelState) (l : Level) (sp sp2 : Span)
    (hg : s.getEntry l = some sp) (hcore : coreEq sp sp2)
    (hclk : ∀ q, q ∈ allSpans s → clockOk q s.clock)
    (hpar : ∀ q, q ∈ allSpans s → parentProp q (allSpans s))
    (hlev : entryLevelsOk s) (htw : twinOk s) :
    (∀ q, q ∈ allSpans (s.setEntry l sp2) →
      clockOk q (s.setEntry l sp2).clock) ∧
    (∀ q, q ∈ allSpans (s.setEntry l sp2) →
      parentProp q (allSpans (s.setEntry l sp2))) ∧
    entryLevelsOk (s.setEntry l sp2) ∧ twinOk (s.setEntry l sp2) := by
  have hstart : ∀ p, p ∈ allSpans s → p.startedAt < s.clock :=
    fun p hp => (hclk p hp).1
  have hmem := entry_mem_allSpans s l sp hg
  have hfwd : ∀ p, p ∈ allSpans s →
      ∃ q, q ∈ allSpans (s.setEntry l sp2) ∧ mutOk s.clock p q := by
    intro p hp
    rcases mem_allSpans_setEntry_of_mem s l sp sp2 p hg hp with hps | hm'
    · refine ⟨sp2, setEntry_mem_self s l sp2, ?_⟩
      rw [hps]
      exact mutOk_of_coreEq _ _ _ hcore
    · exact ⟨p, hm', mutOk_refl _ p⟩
  refine ⟨?_, ?_, ?_, ?_⟩
  · intro q hq
    rw [setEntry_clock]
    rcases mem_allSpans_setEntry s l sp2 q hq with rfl | hq'
    · obtain ⟨c1, c2⟩ := hclk sp hmem
      refine ⟨?_, ?_⟩
      · rw [hcore.2.2.2.2.1]
        exact c1
      · intro e he
        rw [hcore.2.2.2.2.1]
        refine (c2 e ?_)
        rw [← hcore.2.2.2.2.2]
        exact he
    · exact hclk q hq'
  · intro q hq
    rcases mem_allSpans_setEntry s l sp2 q hq with rfl | hq'
    · exact parentProp_transfer s.clock (allSpans s) _ hfwd hstart sp _ hmem
        (mutOk_of_coreEq _ _ _ hcore) (hpar sp hmem)
    · exact parentProp_transfer s.clock (allSpans s) _ hfwd hstart q q hq'
        (mutOk_refl _ q) (hpar q hq')
  · exact entryLevelsOk_setEntry s l sp2 hlev
      (hcore.2.2.1.trans (entry_level_of s l sp hlev hg))
  · intro l' sp' h' he'
    by_cases hll : l' = l
    · subst hll
      rw [getEntry_setEntry_same] at h'
      obtain rfl := Option.some.inj h'
      have hspend : sp.endedAt ≠ none := by
        rw [← hcore.2.2.2.2.2]
        exact he'
      obtain ⟨qq, hqmem, hqcore⟩ := htw l' sp hg hspend
      refine ⟨qq, ?_, coreEq_trans _ _ _ (coreEq_symm _ _ hcore) hqcore⟩
      rw [setEntry_finished]
      exact hqmem
    · rw [getEntry_setEntry_ne s l l' sp2 hll] at h'
      obtain ⟨qq, hqmem, hqcore⟩ := htw l' sp' h' he'
      refine ⟨qq, ?_, hqcore⟩
      rw [setEntry_finished]
      exact hqmem

theorem inv_runnerFailed (s : OtelState) (result : TaskResult) (ign : Bool)
    (hclk : ∀ sp, sp ∈ allSpans s → clockOk sp s.clock)
    (hpar : ∀ sp, sp ∈ allSpans s → parentProp sp (allSpans s))
    (hlev : entryLevelsOk s) (htw : twinOk s)
    (htab : modeTable .m4 s) (hout : s.output = []) :
    ∃ s', handle s (.runnerFailed result ign) = some s' ∧ Inv .m5 s' := by
  obtain ⟨hpbO, hplO, htkO, hrnO⟩ := htab
  obtain ⟨pbsp, hpbs, hpbopen⟩ := hpbO
  obtain ⟨plsp, hpls, hplopen⟩ := hplO
  obtain ⟨tsp, hts, htopen⟩ := htkO
  obtain ⟨rsp, hrs, hropen⟩ := hrnO
  have hgr : s.getEntry .runner = some rsp := hrs
  have hcore : coreEq rsp ((rsp.addEvent "exception"
      [("exception.message", result.msg)]).setStatus .error) :=
    coreEq_trans _ _ _ (addEvent_coreEq rsp "exception" _)
      (setStatus_coreEq _ .error)
  obtain ⟨R1, R2, R3, R4⟩ := inv_replaceEntry s .runner rsp
    ((rsp.addEvent "exception" [("exception.message", result.msg)]).setStatus
      .error) hgr hcore hclk hpar hlev htw
  obtain ⟨F1, F2, F3, F4⟩ := inv_endIfPresent
    (s.setEntry .runner ((rsp.addEvent "exception"
      [("exception.message", result.msg)]).setStatus .error)) .runner
    R1 R2 R3 R4
  have heq : v2_runner_on_failed s result ign =
      some (endIfPresent (s.setEntry .runner ((rsp.addEvent "exception"
        [("exception.message", result.msg)]).setStatus .error)) .runner) := by
    simp only [v2_runner_on_failed, hgr]
  have hgA : (s.setEntry .runner ((rsp.addEvent "exception"
      [("exception.message", result.msg)]).setStatus .error)).getEntry
      .runner = some ((rsp.addEvent "exception"
      [("exception.message", result.msg)]).setStatus .error) :=
    getEntry_setEntry_same s .runner _
  have hentry : ∀ l', l' ≠ .runner →
      (endIfPresent (s.setEntry .runner ((rsp.addEvent "exception"
        [("exception.message", result.msg)]).setStatus .error))
        .runner).getEntry l' = s.getEntry l' := by
    intro l' hne
    rw [endIfPresent_getEntry_ne _ _ _ hne,
      getEntry_setEntry_ne s .runner l' _ hne]
  refine ⟨_, heq, F1, F2, F3, F4, ?_, ?_⟩
  · refine ⟨⟨pbsp, (hentry .playbook (by decide)).trans hpbs, hpbopen⟩,
      ⟨plsp, (hentry .play (by decide)).trans hpls, hplopen⟩,
      ⟨tsp, (hentry .task (by decide)).trans hts, htopen⟩, ?_⟩
    exact endIfPresent_closed_present _ .runner _ hgA
  · refine ⟨fun _ => ?_, fun h => Mode.noConfusion h⟩
    rw [endIfPresent_output, setEntry_output]
    exact hout

theorem inv_stats (s : OtelState)
    (hclk : ∀ sp, sp ∈ allSpans s → clockOk sp s.clock)
    (hpar : ∀ sp, sp ∈ allSpans s → parentProp sp (allSpans s))
    (hlev : entryLevelsOk s) (htw : twinOk s)
    (hpb : entryOpen s.pb) (hout : s.output = []) :
    ∃ s', v2_playbook_on_stats s = some s' ∧ Inv .done s' := by
  obtain ⟨pbsp, hpbs, hpbopen⟩ := hpb
  obtain ⟨k1, p1, l1, t1⟩ := inv_endIfPresent s .runner hclk hpar hlev htw
  obtain ⟨k2, p2, l2, t2⟩ :=
    inv_endIfPresent (endIfPresent s .runner) .task k1 p1 l1 t1
  obtain ⟨k3, p3, l3, t3⟩ := inv_endIfPresent
    (endIfPresent (endIfPresent s .runner) .task) .play k2 p2 l2 t2
  obtain ⟨k4, p4, l4, t4⟩ := inv_endIfPresent
    (endIfPresent (endIfPresent (endIfPresent s .runner) .task) .play)
    .playbook k3 p3 l3 t3
  have hpb3 : (endIfPresent (endIfPresent (endIfPresent s .runner) .task)
      .play).getEntry .playbook = some pbsp := by
    rw [endIfPresent_getEntry_ne _ _ _ (by decide),
      endIfPresent_getEntry_ne _ _ _ (by decide),
      endIfPresent_getEntry_ne _ _ _ (by decide)]
    exact hpbs
  obtain ⟨sp0, hsp0, hsp0c⟩ := endIfPresent_closed_present
    (endIfPresent (endIfPresent (endIfPresent s .runner) .task) .play)
    .playbook pbsp hpb3
  have hpl4 : entryClosedOrAbsent ((endIfPresent (endIfPresent (endIfPresent
      (endIfPresent s .runner) .task) .play) .playbook).getEntry .play) := by
    rw [endIfPresent_getEntry_ne _ _ _ (by decide)]
    exact endIfPresent_closes _ .play
  have htk4 : entryClosedOrAbsent ((endIfPresent (endIfPresent (endIfPresent
      (endIfPresent s .runner) .task) .play) .playbook).getEntry .task) := by
    rw [endIfPresent_getEntry_ne _ _ _ (by decide),
      endIfPresent_getEntry_ne _ _ _ (by decide)]
    exact endIfPresent_closes _ .task
  have hrn4 : entryClosedOrAbsent ((endIfPresent (endIfPresent (endIfPresent
      (endIfPresent s .runner) .task) .play) .playbook).getEntry
      .runner) := by
    rw [endIfPresent_getEntry_ne _ _ _ (by decide),
      endIfPresent_getEntry_ne _ _ _ (by decide),
      endIfPresent_getEntry_ne _ _ _ (by decide)]
    exact endIfPresent_closes _ .runner
  have hout4 : (endIfPresent (endIfPresent (endIfPresent (endIfPresent s
      .runner) .task) .play) .playbook).output = [] := by
    rw [endIfPresent_output, endIfPresent_output, endIfPresent_output,
      endIfPresent_output]
    exact hout
  simp only [v2_playbook_on_stats, hsp0]
  refine ⟨_, rfl, k4, p4, l4, t4, ?_, ?_⟩
  · exact ⟨⟨sp0, hsp0, hsp0c⟩, fun q hq => hpl4 q hq, fun q hq => htk4 q hq,
      fun q hq => hrn4 q hq⟩
  · refine ⟨fun h => absurd rfl h, fun _ => ⟨sp0, hsp0, ?_⟩⟩
    show (endIfPresent (endIfPresent (endIfPresent (endIfPresent s .runner)
      .task) .play) .playbook).output ++
      ["TRACE ID [" ++ format_trace_id sp0.traceId ++ "]"] =
      ["TRACE ID [" ++ format_trace_id sp0.traceId ++ "]"]
    rw [hout4]
    rfl

theorem endIfPresent_noop_closed (s : OtelState) (l : Level)
    (h : entryClosedOrAbsent (s.getEntry l)) :
    (endIfPresent s l).finished = s.finished ∧
    (endIfPresent s l).clock = s.clock ∧
    (s.getEntry l = none → (endIfPresent s l).getEntry l = none) ∧
    (∀ sp, s.getEntry l = some sp →
      (endIfPresent s l).getEntry l =
        some { sp with endCalls := sp.endCalls + 1 }) := by
  cases hg : s.getEntry l with
  | none =>
    rw [endIfPresent_absent s l hg]
    refine ⟨rfl, rfl, fun _ => hg, ?_⟩
    intro sp hsp
    cases hsp
  | some sp =>
    obtain ⟨e, he⟩ : ∃ e, sp.endedAt = some e := by
      cases hee : sp.endedAt with
      | none => exact absurd hee (h sp hg)
      | some e => exact ⟨e, rfl⟩
    rw [endIfPresent_closed s l sp e hg he]
    refine ⟨setEntry_finished s l _, setEntry_clock s l _, ?_, ?_⟩
    · intro hnone
      cases hnone
    · intro sp' hsp'
      obtain rfl := Option.some.inj hsp'
      exact getEntry_setEntry_same s l _

theorem stats_shape (s s1 : OtelState)
    (h : v2_playbook_on_stats s = some s1) :
    entryClosedOrAbsent s1.pb ∧ entryClosedOrAbsent s1.pl ∧
    entryClosedOrAbsent s1.tk ∧ entryClosedOrAbsent s1.rn ∧
    s1.pb.isSome = true := by
  simp only [v2_playbook_on_stats] at h
  cases hm : (endIfPresent (endIfPresent (endIfPresent (endIfPresent s
      .runner) .task) .play) .playbook).getEntry .playbook with
  | none =>
    rw [hm] at h
    cases h
  | some sp =>
    rw [hm] at h
    obtain rfl := Option.some.inj h
    refine ⟨?_, ?_, ?_, ?_, ?_⟩
    · have hc := endIfPresent_closes
        (endIfPresent (endIfPresent (endIfPresent s .runner) .task) .play)
        .playbook
      exact hc
    · have hc := endIfPresent_closes
        (endIfPresent (endIfPresent s .runner) .task) .play
      have heq : (endIfPresent (endIfPresent (endIfPresent (endIfPresent s
          .runner) .task) .play) .playbook).getEntry .play =
          (endIfPresent (endIfPresent (endIfPresent s .runner) .task)
            .play).getEntry .play :=
        endIfPresent_getEntry_ne _ _ _ (by decide)
      intro q hq
      exact hc q (heq ▸ hq)
    · have hc := endIfPresent_closes (endIfPresent s .runner) .task
      have heq : (endIfPresent (endIfPresent (endIfPresent (endIfPresent s
          .runner) .task) .play) .playbook).getEntry .task =
          (endIfPresent (endIfPresent s .runner) .task).getEntry .task := by
        rw [endIfPresent_getEntry_ne _ _ _ (by decide),
          endIfPresent_getEntry_ne _ _ _ (by decide)]
      intro q hq
      exact hc q (heq ▸ hq)
    · have hc := endIfPresent_closes s .runner
      have heq : (endIfPresent (endIfPresent (endIfPresent (endIfPresent s
          .runner) .task) .play) .playbook).getEntry .runner =
          (endIfPresent s .runner).getEntry .runner := by
        rw [endIfPresent_getEntry_ne _ _ _ (by decide),
          endIfPresent_getEntry_ne _ _ _ (by decide),
          endIfPresent_getEntry_ne _ _ _ (by decide)]
      intro q hq
      exact hc q (heq ▸ hq)
    · exact Option.isSome_iff_exists.mpr ⟨sp, hm⟩

theorem stats_twice (s s1 s2 : OtelState)
    (h1 : v2_playbook_on_stats s = some s1)
    (h2 : v2_playbook_on_stats s1 = some s2) :
    s2.finished = s1.finished ∧
    (∀ (l : Level) (sp : Span), s1.getEntry l = some sp →
      s2.getEntry l = some { sp with endCalls := sp.endCalls + 1 }) ∧
    (∀ l : Level, s1.getEntry l = none → s2.getEntry l = none) := by
  obtain ⟨hpb, hpl, htk, hrn, _⟩ := stats_shape s s1 h1
  obtain ⟨f1, c1, n1, p1⟩ := endIfPresent_noop_closed s1 .runner hrn
  have htk1 : entryClosedOrAbsent
      ((endIfPresent s1 .runner).getEntry .task) := by
    rw [endIfPresent_getEntry_ne _ _ _ (by decide)]
    exact htk
  obtain ⟨f2, c2, n2, p2⟩ :=
    endIfPresent_noop_closed (endIfPresent s1 .runner) .task htk1
  have hpl2 : entryClosedOrAbsent
      ((endIfPresent (endIfPresent s1 .runner) .task).getEntry .play) := by
    rw [endIfPresent_getEntry_ne _ _ _ (by decide),
      endIfPresent_getEntry_ne _ _ _ (by decide)]
    exact hpl
  obtain ⟨f3, c3, n3, p3⟩ := endIfPresent_noop_closed
    (endIfPresent (endIfPresent s1 .runner) .task) .play hpl2
  have hpb3 : entryClosedOrAbsent
      ((endIfPresent (endIfPresent (endIfPresent s1 .runner) .task)
        .play).getEntry .playbook) := by
    rw [endIfPresent_getEntry_ne _ _ _ (by decide),
      endIfPresent_getEntry_ne _ _ _ (by decide),
      endIfPresent_getEntry_ne _ _ _ (by decide)]
    exact hpb
  obtain ⟨f4, c4, n4, p4⟩ := endIfPresent_noop_closed
    (endIfPresent (endIfPresent (endIfPresent s1 .runner) .task) .play)
    .playbook hpb3
  simp only [v2_playbook_on_stats] at h2
  cases hm : (endIfPresent (endIfPresent (endIfPresent (endIfPresent s1
      .runner) .task) .play) .playbook).getEntry .playbook with
  | none =>
    rw [hm] at h2
    cases h2
  | some sp0 =>
    rw [hm] at h2
    obtain rfl := Option.some.inj h2
    refine ⟨(((f4.trans f3).trans f2).trans f1 :), ?_, ?_⟩
    · intro l sp hsp
      cases l with
      | playbook =>
        have hE3 : (endIfPresent (endIfPresent (endIfPresent s1 .runner)
            .task) .play).getEntry .playbook = some sp := by
          rw [endIfPresent_getEntry_ne _ _ _ (by decide),
            endIfPresent_getEntry_ne _ _ _ (by decide),
            endIfPresent_getEntry_ne _ _ _ (by decide)]
          exact hsp
        exact p4 sp hE3
      | play =>
        have hE2 : (endIfPresent (endIfPresent s1 .runner) .task).getEntry
            .play = some sp := by
          rw [endIfPresent_getEntry_ne _ _ _ (by decide),
            endIfPresent_getEntry_ne _ _ _ (by decide)]
          exact hsp
        have hE3 := p3 sp hE2
        have : (endIfPresent (endIfPresent (endIfPresent (endIfPresent s1
            .runner) .task) .play) .playbook).getEntry .play =
            some { sp with endCalls := sp.endCalls + 1 } := by
          rw [endIfPresent_getEntry_ne _ _ _ (by decide)]
          exact hE3
        exact this
      | task =>
        have hE1 : (endIfPresent s1 .runner).getEntry .task = some sp := by
          rw [endIfPresent_getEntry_ne _ _ _ (by decide)]
          exact hsp
        have hE2 := p2 sp hE1
        have : (endIfPresent (endIfPresent (endIfPresent (endIfPresent s1
            .runner) .task) .play) .playbook).getEntry .task =
            some { sp with endCalls := sp.endCalls + 1 } := by
          rw [endIfPresent_getEntry_ne _ _ _ (by decide),
            endIfPresent_getEntry_ne _ _ _ (by decide)]
          exact hE2
        exact this
      | runner =>
        have hE1 := p1 sp hsp
        have : (endIfPresent (endIfPresent (endIfPresent (endIfPresent s1
            .runner) .task) .play) .playbook).getEntry .runner =
            some { sp with endCalls := sp.endCalls + 1 } := by
          rw [endIfPresent_getEntry_ne _ _ _ (by decide),
            endIfPresent_getEntry_ne _ _ _ (by decide),
            endIfPresent_getEntry_ne _ _ _ (by decide)]
          exact hE1
        exact this
    · intro l hnil
      cases l with
      | playbook =>
        have hE3 : (endIfPresent (endIfPresent (endIfPresent s1 .runner)
            .task) .play).getEntry .playbook = none := by
          rw [endIfPresent_getEntry_ne _ _ _ (by decide),
            endIfPresent_getEntry_ne _ _ _ (by decide),
            endIfPresent_getEntry_ne _ _ _ (by decide)]
          exact hnil
        exact n4 hE3
      | play =>
        have hE2 : (endIfPresent (endIfPresent s1 .runner) .task).getEntry
            .play = none := by
          rw [endIfPresent_getEntry_ne _ _ _ (by decide),
            endIfPresent_getEntry_ne _ _ _ (by decide)]
          exact hnil
        have hE3 := n3 hE2
        have : (endIfPresent (endIfPresent (endIfPresent (endIfPresent s1
            .runner) .task) .play) .playbook).getEntry .play = none := by
          rw [endIfPresent_getEntry_ne _ _ _ (by decide)]
          exact hE3
        exact this
      | task =>
        have hE1 : (endIfPresent s1 .runner).getEntry .task = none := by
          rw [endIfPresent_getEntry_ne _ _ _ (by decide)]
          exact hnil
        have hE2 := n2 hE1
        have : (endIfPresent (endIfPresent (endIfPresent (endIfPresent s1
            .runner) .task) .play) .playbook).getEntry .task = none := by
          rw [endIfPresent_getEntry_ne _ _ _ (by decide),
            endIfPresent_getEntry_ne _ _ _ (by decide)]
          exact hE2
        exact this
      | runner =>
        have hE1 := n1 hnil
        have : (endIfPresent (endIfPresent (endIfPresent (endIfPresent s1
            .runner) .task) .play) .playbook).getEntry .runner = none := by
          rw [endIfPresent_getEntry_ne _ _ _ (by decide),
            endIfPresent_getEntry_ne _ _ _ (by decide),
            endIfPresent_getEntry_ne _ _ _ (by decide)]
          exact hE1
        exact this

theorem inv_init : Inv .m0 initState := by
  refine ⟨?_, ?_, ?_, ?_, ?_, ?_⟩
  · intro sp hsp
    simp [allSpans, initState] at hsp
  · intro sp hsp
    simp [allSpans, initState] at hsp
  · refine ⟨?_, ?_, ?_, ?_⟩ <;> intro sp h <;> cases h
  · intro l sp h he
    cases l <;> cases h
  · exact ⟨rfl, rfl, rfl, rfl⟩
  · exact ⟨fun _ => rfl, fun h => Mode.noConfusion h⟩

theorem inv_step (m m' : Mode) (n : Notif) (s : OtelState)
    (hv : validStep m n = some m') (hinv : Inv m s) :
    ∃ s', handle s n = some s' ∧ Inv m' s' := by
  obtain ⟨hclk, hpar, hlev, htw, htab, hout⟩ := hinv
  cases m <;> cases n <;> simp only [validStep] at hv <;>
    first
    | exact Option.noConfusion hv
    | (obtain rfl := Option.some.inj hv
       first
       | exact ⟨_, rfl, inv_pbStart s _ hclk hpar hlev htw htab
           (hout.1 (by decide))⟩
       | exact inv_playStart s _ hclk hpar hlev htw htab.1
           (hout.1 (by decide))
       | exact inv_taskStart s _ hclk hpar hlev htw htab.1 htab.2.1
           (hout.1 (by decide))
       | exact inv_runnerStart s _ _ hclk hpar hlev htw htab.1 htab.2.1
           htab.2.2.1 (hout.1 (by decide))
       | exact inv_runnerFailed s _ _ hclk hpar hlev htw htab
           (hout.1 (by decide))
       | exact inv_stats s hclk hpar hlev htw htab.1 (hout.1 (by decide)))

theorem inv_runSeq (ns : List Notif) : ∀ (m m' : Mode) (s : OtelState),
    validFrom m ns = some m' → Inv m s →
    ∃ s', runSeq s ns = some s' ∧ Inv m' s' := by
  induction ns with
  | nil =>
    intro m m' s hv hinv
    simp only [validFrom] at hv
    obtain rfl := Option.some.inj hv
    exact ⟨s, rfl, hinv⟩
  | cons n ns ih =>
    intro m m' s hv hinv
    simp only [validFrom] at hv
    cases hvs : validStep m n with
    | none =>
      rw [hvs] at hv
      cases hv
    | some mmid =>
      rw [hvs] at hv
      obtain ⟨s1, hs1, hinv1⟩ := inv_step m mmid n s hvs hinv
      obtain ⟨s', hs', hinv'⟩ := ih mmid m' s1 hv hinv1
      refine ⟨s', ?_, hinv'⟩
      simp only [runSeq, hs1]
      exact hs'

/-- Claim C5: over any valid notification stream, every recorded span
other than the run span carries as its recorded parent the id of a
recorded span one level shallower that had already started and was
still open when the child span was created; the run span's parent is
the empty root context (`parentSid = none`). -/
theorem c5_parent_linkage (ns : List Notif) (m : Mode) (s' : OtelState)
    (hv : validFrom .m0 ns = some m)
    (hr : runSeq initState ns = some s') :
    ∀ sp, sp ∈ allSpans s' → parentProp sp (allSpans s') := by
  obtain ⟨s2, hs2, hinv⟩ := inv_runSeq ns .m0 m initState hv inv_init
  rw [hr] at hs2
  obtain rfl := Option.some.inj hs2
  exact hinv.2.1

/-- Claim C5, witness: the parent linkage of the exported task span of
the concrete run `exSeq`. -/
theorem c5_witness : parentProp exSpanX (allSpans exFinal) :=
  c5_parent_linkage exSeq .done exFinal (by decide) (by decide) exSpanX
    (by decide)

/-- Claim C9: after any valid notification stream ending in the
run-end notification, the banner output consists of exactly one line
carrying the trace id of the (by then ended) run span; before the
run-end notification nothing has been printed. -/
theorem c9_trace_banner :
    (∀ (ns : List Notif) (s' : OtelState), validFrom .m0 ns = some .done →
      runSeq initState ns = some s' →
      ∃ sp, s'.pb = some sp ∧ sp.level = .playbook ∧ sp.endedAt ≠ none ∧
        s'.output = ["TRACE ID [" ++ format_trace_id sp.traceId ++ "]"]) ∧
    (∀ (ns : List Notif) (m : Mode) (s' : OtelState),
      validFrom .m0 ns = some m → m ≠ .done →
      runSeq initState ns = some s' → s'.output = []) := by
  constructor
  · intro ns s' hv hr
    obtain ⟨s2, hs2, hinv⟩ := inv_runSeq ns .m0 .done initState hv inv_init
    rw [hr] at hs2
    obtain rfl := Option.some.inj hs2
    obtain ⟨hclk, hpar, hlev, htw, htab, hout⟩ := hinv
    obtain ⟨sp, hsp, houtp⟩ := hout.2 rfl
    obtain ⟨spc, hspc, hclosed⟩ := htab.1
    rw [hsp] at hspc
    obtain rfl := Option.some.inj hspc
    exact ⟨sp, hsp, hlev.1 sp hsp, hclosed, houtp⟩
  · intro ns m s' hv hm hr
    obtain ⟨s2, hs2, hinv⟩ := inv_runSeq ns .m0 m initState hv inv_init
    rw [hr] at hs2
    obtain rfl := Option.some.inj hs2
    exact hinv.2.2.2.2.2.1 hm

/-- Claim C9, witness: the banner of the concrete run `exSeq`. -/
theorem c9_witness :
    ∃ sp, exFinal.pb = some sp ∧ sp.level = .playbook ∧ sp.endedAt ≠ none ∧
      exFinal.output = ["TRACE ID [" ++ format_trace_id sp.traceId ++ "]"] :=
  c9_trace_banner.1 exSeq exFinal (by decide) (by decide)

/-- Claim C1: the code violates the claim.  In the valid run `exSeq`
(run start, stage start, step start, execution start, execution failed,
run end) the execution-failed handler ends the runner span (one `end()`
call, end timestamp stamped), but because the entry is never removed
from `active_spans`, the run-end handler calls `end()` on that very same
span again: its call count rises to 2 while its end timestamp stays the
stamp of the first call. -/
theorem c1_runner_span_ended_twice :
    runSeq initState (exSeq.take 5) = some exAfterFail ∧
    runSeq initState exSeq = some exFinal ∧
    exAfterFail.rn = some exRunnerAfterFail ∧
    exRunnerAfterFail.endCalls = 1 ∧
    exRunnerAfterFail.endedAt.isSome = true ∧
    exFinal.rn = some exRunnerFinal ∧
    exRunnerFinal.sid = exRunnerAfterFail.sid ∧
    exRunnerFinal.endedAt = exRunnerAfterFail.endedAt ∧
    exRunnerFinal.endCalls = 2 := by
  decide

/-- Claim C2: refutation of the claim as stated.  An execution-failed
notification arriving in the initial state (no execution span at all)
makes the handler raise a `KeyError` to the caller (modelled as `none`)
instead of returning normally. -/
theorem c2_counterexample :
    handle initState (.runnerFailed exResult false) = none := rfl

/-- Claim C2, amended: a handler returns normally exactly when the
dictionary entry it reads unconditionally is present — run-start always
succeeds, stage-start and run-end need the `playbook` entry, step-start
the `play` entry, execution-start the `task` entry, and execution-failed
the `runner` entry; in every other state the `KeyError` propagates to
the caller. -/
theorem c2_amended (s : OtelState) (pbk : Playbook) (play : Play)
    (task : Task) (host : String) (result : TaskResult) (ign : Bool) :
    (handle s (.playbookStart pbk)).isSome = true ∧
    (handle s (.playStart play)).isSome = s.pb.isSome ∧
    (handle s (.taskStart task)).isSome = s.pl.isSome ∧
    (handle s (.runnerStart host task)).isSome = s.tk.isSome ∧
    (handle s (.runnerFailed result ign)).isSome = s.rn.isSome ∧
    (handle s .stats).isSome = s.pb.isSome :=
  ⟨rfl, playStart_isSome s play, taskStart_isSome s task,
    runnerStart_isSome s host task, runnerFailed_isSome s result ign,
    stats_isSome s⟩

/-- Claim C3: refutation of the claim as stated.  A step-start arriving
when only the run span is open (no stage span was ever started) does not
succeed with the run span as parent: the handler raises a `KeyError`
reading the absent `play` entry. -/
theorem c3_counterexample :
    runSeq initState [.playbookStart exPlaybook, .taskStart exTask] = none := rfl

/-- Claim C3, amended: there is no walk-up to the nearest open
shallower level.  A step-start with no `play` entry raises, an
execution-start with no `task` entry raises, and when the `play` entry
exists the new step span is parented to exactly that entry. -/
theorem c3_amended :
    (∀ (s : OtelState) (task : Task), s.pl = none →
      v2_playbook_on_task_start s task = none) ∧
    (∀ (s : OtelState) (host : String) (task : Task), s.tk = none →
      v2_runner_on_start s host task = none) ∧
    (∀ (s : OtelState) (task : Task) (p : Span), s.pl = some p →
      ∃ s', v2_playbook_on_task_start s task = some s' ∧
        ∃ t, s'.tk = some t ∧ t.parentSid = some p.sid) := by
  refine ⟨?_, ?_, ?_⟩
  · intro s task hpl
    have h := taskStart_isSome s task
    rw [hpl] at h
    cases hres : v2_playbook_on_task_start s task with
    | none => rfl
    | some s' => rw [hres] at h; simp at h
  · intro s host task htk
    have h := runnerStart_isSome s host task
    rw [htk] at h
    cases hres : v2_runner_on_start s host task with
    | none => rfl
    | some s' => rw [hres] at h; simp at h
  · intro s task p hp
    obtain ⟨s', hs', t, ht, hpar, _⟩ := taskStart_present s task p hp
    exact ⟨s', hs', t, ht, hpar⟩

/-- Claim C3, witness for the amended claim: after only a run start,
the step-start handler raises. -/
theorem c3_witness :
    v2_playbook_on_task_start (v2_playbook_on_start initState exPlaybook)
      exTask = none :=
  c3_amended.1 (v2_playbook_on_start initState exPlaybook) exTask (by decide)

/-- Claim C6: refutation of the claim as stated.  On a step descriptor
with action `copy`, args `{dest: /tmp/a}` and environment
`[{FOO: bar}]`, the extractor does not produce the mapping
`{step.action, args.dest, env.FOO}` claimed. -/
theorem c6_counterexample :
    (set_task_attrs exFreshTaskSpan exTask).attributes ≠
      [("step.action", "copy"), ("args.dest", "/tmp/a"), ("env.FOO", "bar")] := by
  decide

/-- Claim C6, amended: on that descriptor the extractor yields exactly
`{task.action: copy, task.args.dest: /tmp/a, environment.FOO: bar}` —
the same shape, under the source's key names. -/
theorem c6_amended :
    (set_task_attrs exFreshTaskSpan exTask).attributes =
      [("task.action", "copy"), ("task.args.dest", "/tmp/a"),
       ("environment.FOO", "bar")] := by
  decide

/-- Claim C7: when an execution-failed notification with message `msg`
arrives while the execution span is open, that span gets an `exception`
event carrying the message, its status becomes Error and it is ended;
a subsequent execution-start for another host opens a fresh execution
span whose status is not Error. -/
theorem c7_error_path (s : OtelState) (msg host : String) (task : Task)
    (ign : Bool) (rsp tsp : Span) (hr : s.rn = some rsp)
    (he : rsp.endedAt = none) (ht : s.tk = some tsp)
    (hsid : rsp.sid ≠ s.nextSid) :
    ∃ s1, v2_runner_on_failed s ⟨msg⟩ ign = some s1 ∧
      (∃ r, s1.rn = some r ∧ r.sid = rsp.sid ∧ r.status = .error ∧
        r.events = rsp.events ++
          [⟨"exception", [("exception.message", msg)]⟩] ∧
        r.endedAt = some s.clock) ∧
      ∃ s2, v2_runner_on_start s1 host task = some s2 ∧
        ∃ f, s2.rn = some f ∧ f.status = .unset ∧ f.endedAt = none ∧
          f.events = [] ∧ f.sid = s.nextSid ∧ f.sid ≠ rsp.sid := by
  rw [runnerFailed_open s ⟨msg⟩ ign rsp hr he]
  refine ⟨_, rfl, ⟨_, rfl, rfl, rfl, rfl, rfl⟩, ?_⟩
  obtain ⟨s2, hs2, hrn, htk, hpl, hpb, hns⟩ := runnerStart_present
    { s with
      rn := some { rsp with
        events := rsp.events ++ [⟨"exception", [("exception.message", msg)]⟩],
        status := .error, endedAt := some s.clock, endCalls := rsp.endCalls + 1 },
      finished := s.finished ++ [{ rsp with
        events := rsp.events ++ [⟨"exception", [("exception.message", msg)]⟩],
        status := .error, endedAt := some s.clock, endCalls := rsp.endCalls + 1 }],
      clock := s.clock + 1 } host task tsp ht
  exact ⟨s2, hs2, _, hrn, rfl, rfl, rfl, rfl, Ne.symm hsid⟩

/-- Claim C7, witness: the error path evaluated in the state of `exSeq`
right after the execution span opened. -/
theorem c7_witness :
    ∃ s1, v2_runner_on_failed exMid ⟨"connection refused"⟩ false = some s1 ∧
      (∃ r, s1.rn = some r ∧ r.sid = exRunnerSpan.sid ∧ r.status = .error ∧
        r.events = exRunnerSpan.events ++
          [⟨"exception", [("exception.message", "connection refused")]⟩] ∧
        r.endedAt = some exMid.clock) ∧
      ∃ s2, v2_runner_on_start s1 "h2" exTask = some s2 ∧
        ∃ f, s2.rn = some f ∧ f.status = .unset ∧ f.endedAt = none ∧
          f.events = [] ∧ f.sid = exMid.nextSid ∧ f.sid ≠ exRunnerSpan.sid :=
  c7_error_path exMid "connection refused" "h2" exTask false exRunnerSpan
    exTaskSpan (by decide) (by decide) (by decide) (by decide)

/-- Claim C4: refutation of the claim as stated.  The claim includes
run-start among the notifications that close every open same-or-deeper
span, but a second playbook-start closes nothing: after two consecutive
playbook-starts two spans were created (`nextSid = 2`), the exporter
received none of them (`finished = []`), and the first run span was
silently dropped from the table (the entry now holds span 1) without
ever being ended. -/
theorem c4_counterexample :
    runSeq initState
      [.playbookStart exPlaybook, .playbookStart exPlaybook] = some exDoublePb ∧
    exDoublePb.finished = [] ∧ exDoublePb.nextSid = 2 ∧
    exDoublePb.pb.map Span.sid = some 1 := by
  decide

/-- Claim C4, amended: for stage-, step- and execution-start
notifications, every open table entry at the same or a deeper level is
ended — deepest level first — before the new span is opened, and every
newly exported span carries an end timestamp at most the new span's
start timestamp; the run-start handler closes nothing (it overwrites
the run entry, leaving previously open spans unended and unexported). -/
theorem c4_closing_order :
    (∀ (s : OtelState) (pbk : Playbook),
      (v2_playbook_on_start s pbk).finished = s.finished ∧
      (v2_playbook_on_start s pbk).pl = s.pl ∧
      (v2_playbook_on_start s pbk).tk = s.tk ∧
      (v2_playbook_on_start s pbk).rn = s.rn) ∧
    (∀ (s : OtelState) (play : Play) (pbsp : Span), s.pb = some pbsp →
      ∃ s', v2_playbook_on_play_start s play = some s' ∧
        ∃ np tail, s'.pl = some np ∧ np.endedAt = none ∧ np.sid = s.nextSid ∧
          s'.finished = s.finished ++ tail ∧
          tail.map Span.sid =
            openSid s .runner ++ openSid s .task ++ openSid s .play ∧
          ∀ q ∈ tail, ∃ e, q.endedAt = some e ∧ e ≤ np.startedAt) ∧
    (∀ (s : OtelState) (task : Task) (plsp : Span), s.pl = some plsp →
      ∃ s', v2_playbook_on_task_start s task = some s' ∧
        ∃ nt tail, s'.tk = some nt ∧ nt.endedAt = none ∧ nt.sid = s.nextSid ∧
          s'.finished = s.finished ++ tail ∧
          tail.map Span.sid = openSid s .runner ++ openSid s .task ∧
          ∀ q ∈ tail, ∃ e, q.endedAt = some e ∧ e ≤ nt.startedAt) ∧
    (∀ (s : OtelState) (host : String) (task : Task) (tsp : Span),
      s.tk = some tsp →
      ∃ s', v2_runner_on_start s host task = some s' ∧
        ∃ nr tail, s'.rn = some nr ∧ nr.endedAt = none ∧ nr.sid = s.nextSid ∧
          s'.finished = s.finished ++ tail ∧
          tail.map Span.sid = openSid s .runner ∧
          ∀ q ∈ tail, ∃ e, q.endedAt = some e ∧ e ≤ nr.startedAt) := by
  refine ⟨?_, playStart_closes, taskStart_closes, runnerStart_closes⟩
  intro s pbk
  exact ⟨rfl, rfl, rfl, rfl⟩

/-- Claim C4, witness for the amended claim: a stage-start in the state
of `exSeq` with all four entries open ends the runner, task and play
entries, deepest first, before the new play span starts. -/
theorem c4_witness :
    ∃ s', v2_playbook_on_play_start exMid exPlay = some s' ∧
      ∃ np tail, s'.pl = some np ∧ np.endedAt = none ∧
        np.sid = exMid.nextSid ∧
        s'.finished = exMid.finished ++ tail ∧
        tail.map Span.sid = openSid exMid .runner ++ openSid exMid .task ++
          openSid exMid .play ∧
        ∀ q ∈ tail, ∃ e, q.endedAt = some e ∧ e ≤ np.startedAt :=
  c4_closing_order.2.1 exMid exPlay exPbSpan (by decide)

/-- Claim C8: refutation of the claim as stated.  Invoking the run-end
handler a second time in the state left by the first invocation does
issue an `end()` call on the playbook span again — its end-call count
rises from 1 to 2 — because the entry is still in the table; only the
export side stays unchanged. -/
theorem c8_counterexample :
    v2_playbook_on_stats (v2_playbook_on_start initState exPlaybook)
      = some exStats1 ∧
    v2_playbook_on_stats exStats1 = some exStats2 ∧
    exStats1.pb.map Span.endCalls = some 1 ∧
    exStats2.pb.map Span.endCalls = some 2 ∧
    exStats2.finished = exStats1.finished := by
  decide

/-- Claim C8, amended: a second back-to-back run-end invocation hands no
additional span to the exporter and changes no end timestamp — every
new export would append to `finished`, which stays exactly the same —
but it is not a no-op at the call level: it invokes `end()` once more on
every entry still present in the table (each end-call count rises by
one), since entries are never removed. -/
theorem c8_close_all_second_call (s s1 s2 : OtelState)
    (h1 : v2_playbook_on_stats s = some s1)
    (h2 : v2_playbook_on_stats s1 = some s2) :
    s2.finished = s1.finished ∧
    (∀ (l : Level) (sp : Span), s1.getEntry l = some sp →
      s2.getEntry l = some { sp with endCalls := sp.endCalls + 1 }) ∧
    (∀ l : Level, s1.getEntry l = none → s2.getEntry l = none) :=
  stats_twice s s1 s2 h1 h2

/-- Claim C8, witness: the second stats call after `exPlaybook`'s run
hands nothing new to the exporter. -/
theorem c8_witness : exStats2.finished = exStats1.finished :=
  (c8_close_all_second_call (v2_playbook_on_start initState exPlaybook)
    exStats1 exStats2 (by decide) (by decide)).1

/-- Claim C10: the execution-failed handler ignores its `ignore_errors`
parameter entirely — its result is identical for every value of the
flag — and with an open execution span it attaches the exception event,
marks the span errored and ends it even when the flag is true. -/
theorem c10_failed_ignores_flag (s : OtelState) (result : TaskResult)
    (ign : Bool) :
    v2_runner_on_failed s result ign = v2_runner_on_failed s result false ∧
    (∀ rsp, s.rn = some rsp → rsp.endedAt = none →
      ∃ s', v2_runner_on_failed s result true = some s' ∧
        ∃ r, s'.rn = some r ∧ r.status = .error ∧ r.endedAt = some s.clock ∧
          r.endCalls = rsp.endCalls + 1 ∧
          r.events = rsp.events ++
            [⟨"exception", [("exception.message", result.msg)]⟩] ∧
          s'.finished = s.finished ++ [r]) := by
  refine ⟨rfl, ?_⟩
  intro rsp hr he
  rw [runnerFailed_open s result true rsp hr he]
  exact ⟨_, rfl, _, rfl, rfl, rfl, rfl, rfl, rfl⟩

/-- Claim C10, witness: evaluated with `ignore_errors := true` in the
state of `exSeq` right after the execution span opened. -/
theorem c10_witness :
    ∃ s', v2_runner_on_failed exMid exResult true = some s' ∧
      ∃ r, s'.rn = some r ∧ r.status = .error ∧ r.endedAt = some exMid.clock ∧
        r.endCalls = exRunnerSpan.endCalls + 1 ∧
        r.events = exRunnerSpan.events ++
          [⟨"exception", [("exception.message", exResult.msg)]⟩] ∧
        s'.finished = exMid.finished ++ [r] :=
  (c10_failed_ignores_flag exMid exResult true).2 exRunnerSpan
    (by decide) (by decide)

end Otel
